import Mathlib

/-!
# Shallow embedding of the danmrichards/chip8 CHIP-8 interpreter

This file embeds the Go sources of the `internal/chip8` package (the `VM`
struct, its opcode handlers, `Cycle`, `Load`, `updateTimers`, `reset`) as
executable Lean definitions, and proves or refutes the frozen claims about
them.

Conventions used in the translation from Go:
* Go `byte` / `uint16` values are `Nat` with explicit reductions
  `% 256` / `% 65536` exactly where the Go arithmetic can wrap.
  Bit masks on the 16-bit opcode are rendered arithmetically:
  `opc & 0x0F00 >> 8 ↦ opc / 256 % 16`, `opc & 0x00F0 >> 4 ↦ opc / 16 % 16`,
  `opc & 0x000F ↦ opc % 16`, `opc & 0x00FF ↦ opc % 256`,
  `opc & 0x0FFF ↦ opc % 4096`, `opc & 0xFFFF ↦ opc % 65536`,
  and the primary dispatch key `opc & 0xF000` is represented by the top
  nibble `opc / 4096 % 16` (the map keys `0x0000 .. 0xF000` become `0x0 .. 0xF`).
* Go fixed arrays (`[4096]byte`, `[16]byte`, `[64*32]byte`, `[16]uint16`)
  are index functions `Nat → Nat` updated with `upd`; their lengths are the
  static Go lengths, so every index expression that Go bounds-checks is
  modelled by an explicit comparison with the literal length (4096, 16,
  2048), and an out-of-range index yields a `fault` outcome (the Go runtime
  panic).  Register indexes derived from opcode nibbles are `< 16` and can
  never fault in Go, so they are unguarded, exactly as in the source.
* The unbuffered channel sends on `drawChan` / `beepChan` are modelled as
  emitted events (`Ev.draw`, `Ev.beep`).
* `rand.Intn(256)` in `setVxRand` is modelled by the `rand` field of the
  state: the next value the generator would produce.
* The 60 Hz ticker of `Cycle` is real time; whether it has fired is passed
  to `Cycle` as the boolean argument `tick`.
* The `Debug` log in `handle` does not affect state and is omitted.
-/

set_option maxRecDepth 4000

set_option maxHeartbeats 1000000

namespace Chip8

/-- Pointwise array update (Go `a[i] = v`). -/
def upd (f : Nat → Nat) (i v : Nat) : Nat → Nat :=
  fun j => if j = i then v else f j

/-- Checked array read: Go `a[idx]` for an array of length `n`, faulting
(runtime panic) when out of range. -/
def arrRead (a : Nat → Nat) (n idx : Nat) : Except Nat Nat :=
  if idx < n then .ok (a idx) else .error idx

/-- Checked array write: Go `a[idx] = val` for an array of length `n`. -/
def arrWrite (a : Nat → Nat) (n idx val : Nat) : Except Nat (Nat → Nat) :=
  if idx < n then .ok (upd a idx val) else .error idx

/-- Machine state: the `VM` struct of `internal/chip8`.  `mem` has 4096
cells, `v` 16, `disp` 64*32 = 2048, `stack` 16, `keys` 16. -/
structure VM where
  opc : Nat
  mem : Nat → Nat
  v : Nat → Nat
  i : Nat
  pc : Nat
  disp : Nat → Nat
  delayTimer : Nat
  soundTimer : Nat
  stack : Nat → Nat
  sp : Nat
  keys : Nat → Nat
  rand : Nat

/-- Events delivered on the VM's channels. -/
inductive Ev where
  | draw : Ev
  | beep : Ev
  deriving DecidableEq, Repr

/-- Result of one opcode handler: the handled value and the new state plus
emitted events on success; the Go `error` return as `err`; a Go runtime
index-out-of-range panic as `fault`. -/
inductive HRes where
  | ok (val : Nat) (s : VM) (evs : List Ev) : HRes
  | err (val : Nat) (msg : String) : HRes
  | fault (idx : Nat) : HRes

/-- Structured form of the errors `handle` can return:
`fmt.Errorf("unsupported opcode: 0x%X", opc)` and
`fmt.Errorf("error handling opcode: %s value: 0x%X: %s", name, val, err)`. -/
inductive CycleErr where
  | unsupported (raw : Nat) : CycleErr
  | handlerFail (opcode : String) (val : Nat) (msg : String) : CycleErr
  deriving DecidableEq, Repr

/-- Result of `handle`/`Cycle`. -/
inductive CycleRes where
  | ok (s : VM) (evs : List Ev) : CycleRes
  | err (e : CycleErr) : CycleRes
  | fault (idx : Nat) : CycleRes

/-- The state of a successful handler result (or a fallback). -/
def HRes.stateD : HRes → VM → VM
  | .ok _ s _, _ => s
  | _, d => d

/-- Whether a handler result is a success. -/
def HRes.isOk : HRes → Bool
  | .ok _ _ _ => true
  | _ => false

/-- The fault index of a handler result, if any. -/
def HRes.faultIdx : HRes → Option Nat
  | .fault i => some i
  | _ => none

/-- The state of a successful cycle result (or a fallback). -/
def CycleRes.stateD : CycleRes → VM → VM
  | .ok s _, _ => s
  | _, d => d

/-- Whether a cycle result is a success. -/
def CycleRes.isOk : CycleRes → Bool
  | .ok _ _ => true
  | _ => false

/-- The error of a cycle result, if any. -/
def CycleRes.errOf : CycleRes → Option CycleErr
  | .err e => some e
  | _ => none

/-- The events of a successful cycle result. -/
def CycleRes.evsOf : CycleRes → List Ev
  | .ok _ evs => evs
  | _ => []

/-- `(opc & 0x0F00) >> 8`: the X register index nibble. -/
def nibX (opc : Nat) : Nat := opc / 256 % 16

/-- `(opc & 0x00F0) >> 4`: the Y register index nibble. -/
def nibY (opc : Nat) : Nat := opc / 16 % 16

/-- uint8 addition. -/
def add8 (a b : Nat) : Nat := (a + b) % 256

/-- uint8 subtraction (two's complement wraparound). -/
def sub8 (a b : Nat) : Nat := (a % 256 + 256 - b % 256) % 256

/-- `jump`: 1NNN, jump to address NNN (`v.pc = v.opc & 0x0FFF`). -/
def jump (s : VM) : HRes :=
  .ok s.opc { s with pc := s.opc % 4096 } []

/-- `callSub`: 2NNN (`v.sp++; v.stack[v.sp] = v.pc; v.pc = NNN`). -/
def callSub (s : VM) : HRes :=
  let sp' := (s.sp + 1) % 65536
  match arrWrite s.stack 16 sp' s.pc with
  | .error e => .fault e
  | .ok st => .ok s.opc { s with sp := sp', stack := st, pc := s.opc % 4096 } []

/-- `subRet`: 00EE (`v.pc = v.stack[v.sp] + 2; v.sp--`). -/
def subRet (s : VM) : HRes :=
  match arrRead s.stack 16 s.sp with
  | .error e => .fault e
  | .ok ret =>
      .ok (s.opc % 256)
        { s with pc := (ret + 2) % 65536, sp := (s.sp + 65535) % 65536 } []

/-- `clrDisp`: 00E0.  The source is an unimplemented stub:
`return v.opc & 0x00FF, errors.New("TODO: clrDisp")` — it does NOT clear
the display. -/
def clrDisp (s : VM) : HRes :=
  .err (s.opc % 256) "TODO: clrDisp"

/-- `callSys`: 0NNN, RCA 1802 call; unimplemented stub returning
`v.opc & 0xF000` and an error. -/
def callSys (s : VM) : HRes :=
  .err (s.opc / 4096 % 16 * 4096) "TODO: callSys"

/-- `handle0x0000`: secondary dispatch for the 0x0 family. -/
def handle0x0000 (s : VM) : HRes :=
  if s.opc % 256 = 0xE0 then clrDisp s
  else if s.opc % 256 = 0xEE then subRet s
  else if s.opc / 4096 % 16 * 4096 = 0 then callSys s
  else .err s.opc "unknown opcode [0x0000]"

/-- `skipVxNN`: 3XNN, skip next instruction if VX == NN. -/
def skipVxNN (s : VM) : HRes :=
  let x := nibX s.opc
  let nn := s.opc % 256
  .ok s.opc
    { s with pc := if s.v x = nn then (s.pc + 4) % 65536 else (s.pc + 2) % 65536 } []

/-- `skipVxNotNN`: 4XNN, skip next instruction if VX != NN. -/
def skipVxNotNN (s : VM) : HRes :=
  let x := nibX s.opc
  let nn := s.opc % 256
  .ok s.opc
    { s with pc := if s.v x ≠ nn then (s.pc + 4) % 65536 else (s.pc + 2) % 65536 } []

/-- `setVx`: 6XNN, VX := NN. -/
def setVx (s : VM) : HRes :=
  let x := nibX s.opc
  let nn := s.opc % 256
  .ok s.opc { s with v := upd s.v x nn, pc := (s.pc + 2) % 65536 } []

/-- `incVx`: 7XNN, VX += NN (uint8 wraparound, no flag change). -/
def incVx (s : VM) : HRes :=
  let x := nibX s.opc
  let nn := s.opc % 256
  .ok s.opc { s with v := upd s.v x (add8 (s.v x) nn), pc := (s.pc + 2) % 65536 } []

/-- `setVxVy`: 8XY0, VX := VY. -/
def setVxVy (s : VM) : HRes :=
  .ok (s.opc % 65536)
    { s with v := upd s.v (nibX s.opc) (s.v (nibY s.opc)), pc := (s.pc + 2) % 65536 } []

/-- `setVxAndVy`: 8XY2, VX &= VY. -/
def setVxAndVy (s : VM) : HRes :=
  .ok (s.opc % 65536)
    { s with v := upd s.v (nibX s.opc) (s.v (nibX s.opc) &&& s.v (nibY s.opc)),
             pc := (s.pc + 2) % 65536 } []

/-- `incVxVy`: 8XY4, VX += VY with carry flag.  As in the source, the carry
test reads the registers before the flag write, then `v.v[0xF]` is written,
then `v.v[x] += v.v[y]` reads the registers again (so VF aliasing with X or
Y is observable). -/
def incVxVy (s : VM) : HRes :=
  let x := nibX s.opc
  let y := nibY s.opc
  let flag := if s.v y > 0xFF - s.v x then 1 else 0
  let v1 := upd s.v 0xF flag
  let v2 := upd v1 x (add8 (v1 x) (v1 y))
  .ok (s.opc % 65536) { s with v := v2, pc := (s.pc + 2) % 65536 } []

/-- `decVxVy`: 8XY5, VX -= VY with borrow flag (same write order as 8XY4). -/
def decVxVy (s : VM) : HRes :=
  let x := nibX s.opc
  let y := nibY s.opc
  let flag := if s.v y > s.v x then 0 else 1
  let v1 := upd s.v 0xF flag
  let v2 := upd v1 x (sub8 (v1 x) (v1 y))
  .ok (s.opc % 65536) { s with v := v2, pc := (s.pc + 2) % 65536 } []

/-- `handle0x8000`: secondary dispatch for the 0x8 family on `opc & 0x000F`. -/
def handle0x8000 (s : VM) : HRes :=
  if s.opc % 16 = 0x0 then setVxVy s
  else if s.opc % 16 = 0x2 then setVxAndVy s
  else if s.opc % 16 = 0x4 then incVxVy s
  else if s.opc % 16 = 0x5 then decVxVy s
  else .err (s.opc % 65536) "TODO: handle0x8000"

/-- `skipVxNotVy`: 9XY0, skip next instruction if VX != VY. -/
def skipVxNotVy (s : VM) : HRes :=
  .ok s.opc
    { s with pc := if s.v (nibX s.opc) ≠ s.v (nibY s.opc)
                   then (s.pc + 4) % 65536 else (s.pc + 2) % 65536 } []

/-- `setAddress`: ANNN, I := NNN. -/
def setAddress (s : VM) : HRes :=
  .ok s.opc { s with i := s.opc % 4096, pc := (s.pc + 2) % 65536 } []

/-- `setVxRand`: CXNN, VX := rand byte & NN. -/
def setVxRand (s : VM) : HRes :=
  let x := nibX s.opc
  let nn := s.opc % 256
  .ok s.opc { s with v := upd s.v x (s.rand % 256 &&& nn), pc := (s.pc + 2) % 65536 } []

/-- Inner loop of `draw` over the 8 bits of one sprite row (`cX` ascending,
`cnt` bits remaining).  `base = (y + cY) * 64`.  The pixel index is uint16
arithmetic (`% 65536`); the bit test is `pixel & (0x80 >> cX)`; a set bit
whose index is outside the 2048-cell display is the Go panic
(`.error idx`), otherwise the cell is XORed with 1, recording a collision
when it was 1. -/
def drawBits (pixel x base : Nat) : Nat → Nat → (Nat → Nat) → Nat → Except Nat ((Nat → Nat) × Nat)
  | 0, _, disp, vf => .ok (disp, vf)
  | cnt + 1, cX, disp, vf =>
    if pixel &&& (128 >>> cX) = 0 then drawBits pixel x base cnt (cX + 1) disp vf
    else
      let index := (x + cX + base) % 65536
      if index < 2048 then
        let old := disp index
        drawBits pixel x base cnt (cX + 1) (upd disp index (old ^^^ 1))
          (if old = 1 then 1 else vf)
      else .error index

/-- Outer loop of `draw` over the `height` sprite rows (`cY` ascending,
`cnt` rows remaining).  Each row byte is read from `v.mem[v.i+cY]`
(checked, uint16 index). -/
def drawRows (mem : Nat → Nat) (i x y : Nat) : Nat → Nat → (Nat → Nat) → Nat → Except Nat ((Nat → Nat) × Nat)
  | 0, _, disp, vf => .ok (disp, vf)
  | cnt + 1, cY, disp, vf =>
    match arrRead mem 4096 ((i + cY) % 65536) with
    | .error e => .error e
    | .ok pixel =>
      match drawBits pixel x ((y + cY) * 64) 8 0 disp vf with
      | .error e => .error e
      | .ok (disp', vf') => drawRows mem i x y cnt (cY + 1) disp' vf'

/-- `draw`: DXYN.  Reads X and Y from the registers (before VF is cleared),
clears VF, blits `height` rows of 8 bits each with XOR, sets VF to 1 on
collision, emits a draw event and advances pc by 2. -/
def draw (s : VM) : HRes :=
  let x := s.v (nibX s.opc)
  let y := s.v (nibY s.opc)
  let height := s.opc % 16
  let v0 := upd s.v 0xF 0
  match drawRows s.mem s.i x y height 0 s.disp 0 with
  | .error idx => .fault idx
  | .ok (disp', vf) =>
      .ok s.opc { s with v := upd v0 0xF vf, disp := disp', pc := (s.pc + 2) % 65536 } [Ev.draw]

/-- `skipVxKeyNotPressed`: EXA1, skip if key VX not pressed.  The key array
index is the byte value of VX, which Go bounds-checks against 16. -/
def skipVxKeyNotPressed (s : VM) : HRes :=
  let x := nibX s.opc
  match arrRead s.keys 16 (s.v x) with
  | .error e => .fault e
  | .ok k =>
      .ok (s.opc % 65536)
        { s with pc := if k = 0 then (s.pc + 4) % 65536 else (s.pc + 2) % 65536 } []

/-- `handle0xE000`: secondary dispatch for the 0xE family (its default error
message says 0xF000 in the source). -/
def handle0xE000 (s : VM) : HRes :=
  if s.opc % 256 = 0xA1 then skipVxKeyNotPressed s
  else .err (s.opc % 65536) "TODO: handle0xF000"

/-- `getDelayTimer`: FX07, VX := delayTimer. -/
def getDelayTimer (s : VM) : HRes :=
  .ok (s.opc % 65536)
    { s with v := upd s.v (nibX s.opc) s.delayTimer, pc := (s.pc + 2) % 65536 } []

/-- `setDelayTimer`: FX15, delayTimer := VX. -/
def setDelayTimer (s : VM) : HRes :=
  .ok (s.opc % 65536)
    { s with delayTimer := s.v (nibX s.opc), pc := (s.pc + 2) % 65536 } []

/-- `setSoundTimer`: FX18, soundTimer := VX. -/
def setSoundTimer (s : VM) : HRes :=
  .ok (s.opc % 65536)
    { s with soundTimer := s.v (nibX s.opc), pc := (s.pc + 2) % 65536 } []

/-- `loadFont`: FX29, I := VX * 5 (uint16). -/
def loadFont (s : VM) : HRes :=
  .ok (s.opc % 65536)
    { s with i := s.v (nibX s.opc) * 5 % 65536, pc := (s.pc + 2) % 65536 } []

/-- `setBCD`: FX33, write the three decimal digits of VX to
`mem[I]`, `mem[I+1]`, `mem[I+2]` (checked uint16 indexes, in order). -/
def setBCD (s : VM) : HRes :=
  let x := nibX s.opc
  match arrWrite s.mem 4096 (s.i % 65536) (s.v x / 100) with
  | .error e => .fault e
  | .ok m1 =>
    match arrWrite m1 4096 ((s.i + 1) % 65536) (s.v x / 10 % 10) with
    | .error e => .fault e
    | .ok m2 =>
      match arrWrite m2 4096 ((s.i + 2) % 65536) (s.v x % 100 % 10) with
      | .error e => .fault e
      | .ok m3 => .ok (s.opc % 65536) { s with mem := m3, pc := (s.pc + 2) % 65536 } []

/-- Loop of `regLoad`: `for i := 0; i <= x; i++ { v.v[i] = v.mem[v.i+i] }`
(`cnt` iterations remaining, `k` the loop counter). -/
def regLoadLoop (mem : Nat → Nat) (base : Nat) : Nat → Nat → (Nat → Nat) → Except Nat (Nat → Nat)
  | 0, _, v => .ok v
  | cnt + 1, k, v =>
    match arrRead mem 4096 ((base + k) % 65536) with
    | .error e => .error e
    | .ok b => regLoadLoop mem base cnt (k + 1) (upd v k b)

/-- `regLoad`: FX65, load V0..VX (inclusive) from `mem[I..I+X]`; I unchanged. -/
def regLoad (s : VM) : HRes :=
  match regLoadLoop s.mem s.i (nibX s.opc + 1) 0 s.v with
  | .error e => .fault e
  | .ok v' => .ok (s.opc % 65536) { s with v := v', pc := (s.pc + 2) % 65536 } []

/-- `handle0xF000`: secondary dispatch for the 0xF family on `opc & 0x00FF`. -/
def handle0xF000 (s : VM) : HRes :=
  if s.opc % 256 = 0x07 then getDelayTimer s
  else if s.opc % 256 = 0x15 then setDelayTimer s
  else if s.opc % 256 = 0x18 then setSoundTimer s
  else if s.opc % 256 = 0x29 then loadFont s
  else if s.opc % 256 = 0x33 then setBCD s
  else if s.opc % 256 = 0x65 then regLoad s
  else .err (s.opc % 65536) "TODO: handle0xF000"

/-- `registerHandlers`/`handle` dispatch: the map from the top nibble of the
opcode to the named handler.  Nibbles 0x5 and 0xB have no entry. -/
def dispatch (s : VM) : Option (String × HRes) :=
  if s.opc / 4096 % 16 = 0x0 then some ("handle0x0000", handle0x0000 s)
  else if s.opc / 4096 % 16 = 0x1 then some ("1NNN", jump s)
  else if s.opc / 4096 % 16 = 0x2 then some ("2NNN", callSub s)
  else if s.opc / 4096 % 16 = 0x3 then some ("3XNN", skipVxNN s)
  else if s.opc / 4096 % 16 = 0x4 then some ("4XNN", skipVxNotNN s)
  else if s.opc / 4096 % 16 = 0x6 then some ("6XNN", setVx s)
  else if s.opc / 4096 % 16 = 0x7 then some ("7XNN", incVx s)
  else if s.opc / 4096 % 16 = 0x8 then some ("handle0x8000", handle0x8000 s)
  else if s.opc / 4096 % 16 = 0x9 then some ("9XY0", skipVxNotVy s)
  else if s.opc / 4096 % 16 = 0xA then some ("ANNN", setAddress s)
  else if s.opc / 4096 % 16 = 0xC then some ("CXNN", setVxRand s)
  else if s.opc / 4096 % 16 = 0xD then some ("DXYN", draw s)
  else if s.opc / 4096 % 16 = 0xE then some ("handle0xE000", handle0xE000 s)
  else if s.opc / 4096 % 16 = 0xF then some ("handle0xF000", handle0xF000 s)
  else none

/-- `handle`: primary dispatch on `v.opc & 0xF000`; no entry gives the
"unsupported opcode" error with the raw opcode; a handler error is wrapped
with the opcode name and handled value; a handler panic propagates. -/
def handle (s : VM) : CycleRes :=
  match dispatch s with
  | none => .err (.unsupported s.opc)
  | some (_, .ok _ s' evs) => .ok s' evs
  | some (name, .err val msg) => .err (.handlerFail name val msg)
  | some (_, .fault idx) => .fault idx

/-- `updateTimers`: decrement `delayTimer` when positive; decrement
`soundTimer` when positive, emitting the beep when it is exactly 1. -/
def updateTimers (s : VM) : VM × Bool :=
  let s1 := if s.delayTimer > 0 then { s with delayTimer := s.delayTimer - 1 } else s
  if s1.soundTimer > 0 then
    ({ s1 with soundTimer := s1.soundTimer - 1 }, s1.soundTimer = 1)
  else (s1, false)

/-- Fetch the two instruction bytes at `pc`, `pc+1` (uint16 indexes, checked)
and merge them big-endian: `uint16(mem[pc])<<8 | uint16(mem[pc+1])`. -/
def fetch (s : VM) : Except Nat Nat :=
  match arrRead s.mem 4096 s.pc with
  | .error e => .error e
  | .ok hi =>
    match arrRead s.mem 4096 ((s.pc + 1) % 65536) with
    | .error e => .error e
    | .ok lo => .ok (hi * 256 + lo)

/-- `Cycle`: fetch, store the opcode, dispatch, then (only on success) service
the timers when the 60 Hz ticker has fired (`tick`). -/
def Cycle (s : VM) (tick : Bool) : CycleRes :=
  match fetch s with
  | .error e => .fault e
  | .ok op =>
    match handle { s with opc := op } with
    | .ok s' evs =>
        if tick then
          match updateTimers s' with
          | (s'', beep) => .ok s'' (evs ++ if beep then [Ev.beep] else [])
        else .ok s' evs
    | .err e => .err e
    | .fault idx => .fault idx

/-- Outcome of `Load`: success, or the Go index-out-of-range panic of the
copy loop together with the memory as mutated up to the fault.  (`Load`
has no error return for an in-memory ROM: `ioutil.ReadAll` on a byte
reader cannot fail.) -/
inductive LoadOutcome where
  | ok (mem : Nat → Nat) : LoadOutcome
  | fault (idx : Nat) (mem : Nat → Nat) : LoadOutcome

/-- The memory carried by either outcome. -/
def LoadOutcome.memOf : LoadOutcome → Nat → Nat
  | .ok m => m
  | .fault _ m => m

/-- Whether the outcome is a successful return. -/
def LoadOutcome.isOk : LoadOutcome → Bool
  | .ok _ => true
  | .fault _ _ => false

/-- The fault index, if any. -/
def LoadOutcome.faultIdx : LoadOutcome → Option Nat
  | .ok _ => none
  | .fault i _ => some i

/-- The copy loop of `Load`: `for i := 0; i < len(data); i++ {
mem[i+0x200] = data[i] }`, writing successive addresses from `addr` into
the 4096-byte memory; an out-of-range write is the Go panic. -/
def writeSeq : List Nat → Nat → (Nat → Nat) → LoadOutcome
  | [], _, mem => .ok mem
  | b :: rest, addr, mem =>
    if addr < 4096 then writeSeq rest (addr + 1) (upd mem addr b)
    else .fault addr mem

/-- `Load`: copy the ROM bytes into memory offset by 0x200.  There is no
length check in the source. -/
def Load (data : List Nat) (mem : Nat → Nat) : LoadOutcome :=
  writeSeq data 0x200 mem

/-- The font copy of `reset`: `for i := 0; i < 80; i++ { mem[i] = fontset[i] }`.
The `fontset` table itself is defined in a repository file not present under
src/ (only referenced); `reset` is therefore parameterized by it. -/
def copyFont (font : Nat → Nat) (mem : Nat → Nat) : Nat → Nat :=
  (List.range 80).foldl (fun m j => upd m j (font j)) mem

/-- `reset`: zero all state, set pc to 0x200 and seed the font region.
(The key array is not touched by `reset`; the ticker restart is real time.) -/
def reset (font : Nat → Nat) (s : VM) : VM :=
  { s with opc := 0, mem := copyFont font (fun _ => 0),
           v := fun _ => 0, i := 0, pc := 0x200, sp := 0,
           disp := fun _ => 0, stack := fun _ => 0,
           delayTimer := 0, soundTimer := 0 }

/-- `New`: a zero-valued VM passed through `reset`. -/
def newVM (font : Nat → Nat) : VM :=
  reset font
    { opc := 0, mem := fun _ => 0, v := fun _ => 0, i := 0, pc := 0,
      disp := fun _ => 0, delayTimer := 0, soundTimer := 0,
      stack := fun _ => 0, sp := 0, keys := fun _ => 0, rand := 0 }

/-- Run `n` cycles (no ticker fire), stopping on any error or fault. -/
def runCycles : Nat → VM → Option VM
  | 0, s => some s
  | n + 1, s =>
    match Cycle s false with
    | .ok s' _ => runCycles n s'
    | _ => none

/-- Extract the VM of an optional run result (or a fallback). -/
def optVM (o : Option VM) (d : VM) : VM := o.getD d

/-! ## Spec-side sprite predicates

These Bool-valued predicates state, per framebuffer cell, what §4.3 of the
spec describes: bit `b` (MSB first) of sprite row `r` hits cell `j` when
`j = X + b + (Y + r) * 64` and the bit is set in the row byte read from
`memory[I + r]`.  They are used to characterize the result of `draw`. -/

/-- Some bit `b` with `lo ≤ b < lo + cnt` of the row byte `pixel` is set and
maps to cell `j` (cell of bit `b` at row base `base = (Y+row)*64` is
`x + b + base`). -/
def hitBitsFrom (pixel x base j : Nat) : Nat → Nat → Bool
  | _, 0 => false
  | lo, cnt + 1 =>
    ((j == x + lo + base) && (pixel &&& (128 >>> lo) != 0)) ||
      hitBitsFrom pixel x base j (lo + 1) cnt

/-- Some set bit `b` with `lo ≤ b < lo + cnt` of `pixel` lands on a cell of
`disp` that currently holds 1 (a collision). -/
def collideBitsFrom (pixel x base : Nat) (disp : Nat → Nat) : Nat → Nat → Bool
  | _, 0 => false
  | lo, cnt + 1 =>
    ((pixel &&& (128 >>> lo) != 0) && (disp (x + lo + base) == 1)) ||
      collideBitsFrom pixel x base disp (lo + 1) cnt

/-- Some set bit of some sprite row `r` with `lo ≤ r < lo + cnt` hits cell
`j`; the row byte is `memory[I + r]`. -/
def hitRowsFrom (mem : Nat → Nat) (i x y j : Nat) : Nat → Nat → Bool
  | _, 0 => false
  | lo, cnt + 1 =>
    hitBitsFrom (mem (i + lo)) x ((y + lo) * 64) j 0 8 ||
      hitRowsFrom mem i x y j (lo + 1) cnt

/-- Some set bit of some sprite row lands on a lit cell of `disp`. -/
def collideRowsFrom (mem : Nat → Nat) (i x y : Nat) (disp : Nat → Nat) : Nat → Nat → Bool
  | _, 0 => false
  | lo, cnt + 1 =>
    collideBitsFrom (mem (i + lo)) x ((y + lo) * 64) disp 0 8 ||
      collideRowsFrom mem i x y disp (lo + 1) cnt

/-- Cell `j` is hit by the N-row sprite at (x, y) read from `mem[i..i+n)`. -/
def spriteHits (mem : Nat → Nat) (i x y n j : Nat) : Bool :=
  hitRowsFrom mem i x y j 0 n

/-- The sprite turns some lit cell of `disp` off (collision). -/
def spriteCollides (mem : Nat → Nat) (i x y n : Nat) (disp : Nat → Nat) : Bool :=
  collideRowsFrom mem i x y disp 0 n

/-! ## Concrete states used by the counterexamples and witnesses

The `fontset` table referenced by `reset` is defined in a repository file
that is not under src/, so the concrete runs below use an all-zero 80-byte
stand-in.  None of these runs ever reads an address below 0x200 (they only
fetch instructions at 0x200.., and `setBCD` only writes there), so their
results are the same for every font table. -/

/-- Stand-in for the 80-byte `fontset` table (values never read below). -/
def zeroFont : Nat → Nat := fun _ => 0

/-- A freshly constructed VM with the stand-in font. -/
def vm0 : VM := newVM zeroFont

/-- C2: a VM whose next instruction is 00E0 (clear display) and whose
framebuffer has a lit pixel. -/
def c2vm : VM :=
  { vm0 with mem := (Load [0x00, 0xE0] vm0.mem).memOf,
             disp := upd (fun _ => 0) 0 1 }

/-- C4 counterexample: opcode 0x80F4 (X = 0, Y = 0xF) with V0 = 1, VF = 5. -/
def c4vm : VM :=
  { vm0 with opc := 0x80F4, v := upd (upd (fun _ => 0) 0 1) 15 5 }

/-- C4: opcode 0x8014 (X = 0, Y = 1) with V0 = 0xFF, V1 = 0x01. -/
def c4ff : VM :=
  { vm0 with opc := 0x8014, v := upd (upd (fun _ => 0) 0 0xFF) 1 1 }

/-- C4: opcode 0x8014 (X = 0, Y = 1) with V0 = 0x01, V1 = 0x01. -/
def c4one : VM :=
  { vm0 with opc := 0x8014, v := upd (upd (fun _ => 0) 0 1) 1 1 }

/-- C8: opcode 0xD011 (draw at (V0, V1) = (0, 32), height 1) with the sprite
byte 0x80 at I = 0; the computed cell index is 0 + 0 + 32*64 = 2048. -/
def c8vm : VM :=
  { vm0 with opc := 0xD011, v := upd (fun _ => 0) 1 32,
             mem := upd (fun _ => 0) 0 0x80, i := 0 }

/-- C3: opcode 0xD001 (draw at (V0, V0) = (0, 0), height 1) with the 1-bit
sprite byte 0x80 at I = 0x300. -/
def c3vm : VM :=
  { vm0 with opc := 0xD001, i := 0x300, mem := upd (fun _ => 0) 0x300 0x80 }

/-- The state after a (successful) draw. -/
def afterDraw (s : VM) : VM := (draw s).stateD s

/-- C9: a program that sets V0 := 1, I := 0, stores BCD(V0) at mem[0..2],
then sets V0 := 2 and stores BCD(V0) again. -/
def c9prog : List Nat := [0x60, 0x01, 0xA0, 0x00, 0xF0, 0x33, 0x60, 0x02, 0xF0, 0x33]

/-- C9: the VM with `c9prog` loaded. -/
def c9vm : VM := { vm0 with mem := (Load c9prog vm0.mem).memOf }

/-- C10: the VM with the single instruction 0x1201 (jump to the odd address
0x201) loaded. -/
def c10vm : VM := { vm0 with mem := (Load [0x12, 0x01] vm0.mem).memOf }

/-- C1: a 3585-byte ROM (one byte over the 3584 bytes of program space). -/
def c1data : List Nat := List.replicate 3585 7

/-- C6: the VM with the instruction 0x5000 (top nibble 0x5: no registered
handler) loaded. -/
def c6vm : VM := { vm0 with mem := (Load [0x50, 0x00] vm0.mem).memOf }

/-- C5 witness state: delayTimer = 3, soundTimer = 1. -/
def c5vm : VM := { vm0 with delayTimer := 3, soundTimer := 1 }

/-- C7 witness state: a call instruction 0x2345 at pc = 0x400, sp = 3. -/
def c7vm : VM := { vm0 with opc := 0x2345, pc := 0x400, sp := 3 }

/-- C9/C10 witness state: the single instruction 0x6005 (set V0) loaded. -/
def c9w : VM := { vm0 with mem := (Load [0x60, 0x05] vm0.mem).memOf }

/-! # Theorems -/

/-! ## Array update helpers -/

theorem upd_self (f : Nat → Nat) (i v : Nat) : upd f i v i = v := by simp [upd]

theorem upd_ne (f : Nat → Nat) (i v j : Nat) (h : j ≠ i) : upd f i v j = f j := by
  simp [upd, h]

theorem nibX_lt (opc : Nat) : nibX opc < 16 := Nat.mod_lt _ (by omega)

theorem nibY_lt (opc : Nat) : nibY opc < 16 := Nat.mod_lt _ (by omega)

/-! ## C2: the clear-display instruction is an unimplemented stub -/

/-- C2: executing opcode 0x00E0 during a `Cycle` does NOT zero the
framebuffer: `clrDisp` is a stub that returns the error "TODO: clrDisp"
(wrapped by the dispatcher with the handler name and the handled value
0xE0), no new state is produced at all, and the lit cell of `c2vm` stays
lit. -/
theorem clrDisp_stub :
    (Cycle c2vm false).errOf = some (.handlerFail "handle0x0000" 0xE0 "TODO: clrDisp") ∧
    (Cycle c2vm false).isOk = false ∧
    c2vm.disp 0 = 1 :=
  ⟨by decide, by decide, by decide⟩

/-! ## C8: draw does not wrap and faults past the framebuffer -/

/-- C8: with Y origin 32 the draw operation computes cell index
0 + 0 + 32*64 = 2048, one past the 2048-cell framebuffer, and the indexing
faults (Go index-out-of-range panic) instead of wrapping. -/
theorem draw_oob :
    (draw c8vm).faultIdx = some 2048 ∧ c8vm.v (nibY c8vm.opc) = 32 ∧
    c8vm.v (nibX c8vm.opc) + 0 + (c8vm.v (nibY c8vm.opc) + 0) * 64 = 2048 :=
  ⟨by decide, by decide, by decide⟩

/-! ## C4: carry-add -/

/-- C4 counterexample: for X = 0, Y = 0xF (opcode 0x80F4) with V0 = 1 and
VF = 5, the claim predicts V0 := (1 + 5) % 256 = 6, but the code first
overwrites VF with the carry flag (0) and then adds the NEW VF, leaving
V0 = 1. -/
theorem incVxVy_alias_cex :
    nibX c4vm.opc = 0 ∧ nibY c4vm.opc = 15 ∧
    c4vm.v 0 = 1 ∧ c4vm.v 15 = 5 ∧
    ((incVxVy c4vm).stateD c4vm).v 0 = 1 ∧
    (c4vm.v 0 + c4vm.v 15) % 256 = 6 := by
  decide

/-- C4 (amended): for every pair of register indices X ≠ 0xF and Y ≠ 0xF the
carry-add 8XY4 sets VF to 1 exactly when old VY > 255 - old VX, sets
VX := (old VX + old VY) mod 256, leaves the other registers, memory and the
display unchanged, and advances pc by 2; in particular VX=0xFF, VY=0x01
gives VX=0x00 with flag 1, and VX=0x01, VY=0x01 gives VX=0x02 with flag 0.
(When X or Y is 0xF the flag write aliases the addend/result register.) -/
theorem incVxVy_spec :
    (∀ s : VM, nibX s.opc ≠ 15 → nibY s.opc ≠ 15 →
      ∃ s', incVxVy s = HRes.ok (s.opc % 65536) s' [] ∧
        s'.v (nibX s.opc) = (s.v (nibX s.opc) + s.v (nibY s.opc)) % 256 ∧
        s'.v 15 = (if s.v (nibY s.opc) > 255 - s.v (nibX s.opc) then 1 else 0) ∧
        (∀ k, k ≠ nibX s.opc → k ≠ 15 → s'.v k = s.v k) ∧
        s'.pc = (s.pc + 2) % 65536 ∧ s'.mem = s.mem ∧ s'.disp = s.disp) ∧
    ((incVxVy c4ff).stateD c4ff).v 0 = 0 ∧
    ((incVxVy c4ff).stateD c4ff).v 15 = 1 ∧
    ((incVxVy c4one).stateD c4one).v 0 = 2 ∧
    ((incVxVy c4one).stateD c4one).v 15 = 0 := by
  refine ⟨?_, by decide, by decide, by decide, by decide⟩
  intro s hx hy
  refine ⟨_, rfl, ?_, ?_, ?_, rfl, rfl, rfl⟩
  · dsimp only
    rw [upd_self, upd_ne _ _ _ _ (by omega), upd_ne _ _ _ _ (by omega)]
    rfl
  · dsimp only
    rw [upd_ne _ _ _ _ (by omega), upd_self]
  · intro k hkx hk15
    dsimp only
    rw [upd_ne _ _ _ _ hkx, upd_ne _ _ _ _ hk15]

/-- C4 witness: the amended statement applied at `c4ff` (X = 0, Y = 1). -/
theorem incVxVy_spec_witness :
    nibX c4ff.opc ≠ 15 ∧ nibY c4ff.opc ≠ 15 ∧
    (∃ s', incVxVy c4ff = HRes.ok (c4ff.opc % 65536) s' [] ∧
      s'.v (nibX c4ff.opc) = (c4ff.v (nibX c4ff.opc) + c4ff.v (nibY c4ff.opc)) % 256 ∧
      s'.v 15 = (if c4ff.v (nibY c4ff.opc) > 255 - c4ff.v (nibX c4ff.opc) then 1 else 0) ∧
      (∀ k, k ≠ nibX c4ff.opc → k ≠ 15 → s'.v k = c4ff.v k) ∧
      s'.pc = (c4ff.pc + 2) % 65536 ∧ s'.mem = c4ff.mem ∧ s'.disp = c4ff.disp) :=
  ⟨by decide, by decide, incVxVy_spec.1 c4ff (by decide) (by decide)⟩

/-! ## C5: timer service -/

/-- C5: each timer-service step decrements delayTimer by exactly 1 when
positive and leaves it at 0 otherwise, likewise for soundTimer (no wrap
below 0), and signals the beep exactly when soundTimer goes from 1 to 0. -/
theorem updateTimers_spec (s : VM) :
    (0 < s.delayTimer → (updateTimers s).1.delayTimer = s.delayTimer - 1) ∧
    (s.delayTimer = 0 → (updateTimers s).1.delayTimer = 0) ∧
    (0 < s.soundTimer → (updateTimers s).1.soundTimer = s.soundTimer - 1) ∧
    (s.soundTimer = 0 → (updateTimers s).1.soundTimer = 0) ∧
    ((updateTimers s).2 = true ↔ s.soundTimer = 1) := by
  simp only [updateTimers]
  split_ifs with h1 h2 h2 <;>
    refine ⟨?_, ?_, ?_, ?_, ?_⟩ <;> simp_all

/-- C5 witness: the timer-step statement applied at delayTimer = 3,
soundTimer = 1. -/
theorem updateTimers_witness :
    0 < c5vm.delayTimer ∧ (updateTimers c5vm).1.delayTimer = c5vm.delayTimer - 1 ∧
    ((updateTimers c5vm).2 = true ↔ c5vm.soundTimer = 1) :=
  ⟨by decide, (updateTimers_spec c5vm).1 (by decide), (updateTimers_spec c5vm).2.2.2.2⟩

/-! ## C7: call / return round trip -/

/-- C7: from any state with sp ≤ 14, a call (2NNN) followed by a
return-from-subroutine (00EE) restores pc to the original pc + 2 and sp to
its pre-call value. -/
theorem callSub_subRet_roundtrip (s : VM) (hsp : s.sp ≤ 14) (hpc : s.pc + 2 < 65536) :
    ∃ v1 s1 v2 s2, callSub s = HRes.ok v1 s1 [] ∧ subRet s1 = HRes.ok v2 s2 [] ∧
      s2.pc = s.pc + 2 ∧ s2.sp = s.sp := by
  have h1 : (s.sp + 1) % 65536 = s.sp + 1 := Nat.mod_eq_of_lt (by omega)
  have h2 : s.sp + 1 < 16 := by omega
  have hc : callSub s =
      HRes.ok s.opc
        { s with sp := s.sp + 1, stack := upd s.stack (s.sp + 1) s.pc,
                 pc := s.opc % 4096 } [] := by
    simp [callSub, arrWrite, h1, h2]
  refine ⟨s.opc,
    { s with sp := s.sp + 1, stack := upd s.stack (s.sp + 1) s.pc, pc := s.opc % 4096 },
    s.opc % 256,
    { s with stack := upd s.stack (s.sp + 1) s.pc,
             pc := (s.pc + 2) % 65536, sp := (s.sp + 1 + 65535) % 65536 },
    hc, ?_, by dsimp only; omega, by dsimp only; omega⟩
  simp only [subRet, arrRead]
  rw [if_pos h2, upd_self]

/-- C7 witness: the round trip at `c7vm` (pc = 0x400, sp = 3, NNN = 0x345). -/
theorem callSub_subRet_witness :
    c7vm.sp ≤ 14 ∧ c7vm.pc + 2 < 65536 ∧
    (∃ v1 s1 v2 s2, callSub c7vm = HRes.ok v1 s1 [] ∧ subRet s1 = HRes.ok v2 s2 [] ∧
      s2.pc = c7vm.pc + 2 ∧ s2.sp = c7vm.sp) :=
  ⟨by decide, by decide, callSub_subRet_roundtrip c7vm (by decide) (by decide)⟩

/-! ## C1: Load -/

/-- The copy loop with all writes in range: every address in
`[addr, addr + len)` receives the corresponding data byte, everything else
is untouched, and the loop returns normally. -/
theorem writeSeq_ok :
    ∀ (data : List Nat) (addr : Nat) (mem : Nat → Nat), addr + data.length ≤ 4096 →
      ∃ m', writeSeq data addr mem = .ok m' ∧
        ∀ j, m' j = if addr ≤ j ∧ j < addr + data.length
                    then data.getD (j - addr) 0 else mem j := by
  intro data
  induction data with
  | nil =>
    intro addr mem _
    exact ⟨mem, rfl, fun j => (if_neg (by simp only [List.length_nil]; omega)).symm⟩
  | cons b rest ih =>
    intro addr mem hle
    simp only [List.length_cons] at hle
    have ha : addr < 4096 := by omega
    obtain ⟨m', heq, hchar⟩ := ih (addr + 1) (upd mem addr b) (by omega)
    refine ⟨m', ?_, ?_⟩
    · simp only [writeSeq, if_pos ha]; exact heq
    · intro j
      rw [hchar j]
      by_cases hj : j = addr
      · subst hj
        rw [if_neg (by omega), if_pos (by simp only [List.length_cons]; omega), upd_self]
        simp
      · by_cases hj2 : addr + 1 ≤ j ∧ j < addr + 1 + rest.length
        · rw [if_pos hj2, if_pos (by simp only [List.length_cons]; omega)]
          have : j - addr = (j - (addr + 1)) + 1 := by omega
          rw [this]
          simp
        · rw [if_neg hj2, if_neg (by simp only [List.length_cons]; omega),
            upd_ne _ _ _ _ hj]

/-- The copy loop overrunning memory: the first 4096 - addr bytes are
written, then the write at index 4096 is out of range (the Go panic). -/
theorem writeSeq_fault :
    ∀ (data : List Nat) (addr : Nat) (mem : Nat → Nat),
      addr ≤ 4096 → 4096 < addr + data.length →
      ∃ m', writeSeq data addr mem = .fault 4096 m' ∧
        ∀ j, m' j = if addr ≤ j ∧ j < 4096 then data.getD (j - addr) 0 else mem j := by
  intro data
  induction data with
  | nil => intro addr mem h1 h2; simp only [List.length_nil] at h2; omega
  | cons b rest ih =>
    intro addr mem h1 h2
    simp only [List.length_cons] at h2
    by_cases ha : addr < 4096
    · obtain ⟨m', heq, hchar⟩ := ih (addr + 1) (upd mem addr b) (by omega) (by omega)
      refine ⟨m', ?_, ?_⟩
      · simp only [writeSeq, if_pos ha]; exact heq
      · intro j
        rw [hchar j]
        by_cases hj : j = addr
        · subst hj
          rw [if_neg (by omega), if_pos (by omega), upd_self]
          simp
        · by_cases hj2 : addr + 1 ≤ j ∧ j < 4096
          · rw [if_pos hj2, if_pos (by omega)]
            have : j - addr = (j - (addr + 1)) + 1 := by omega
            rw [this]
            simp
          · rw [if_neg hj2, if_neg (by omega), upd_ne _ _ _ _ hj]
    · have haddr : addr = 4096 := by omega
      subst haddr
      exact ⟨mem, by simp [writeSeq], fun j => by rw [if_neg (by omega)]⟩

/-- C1 counterexample: `Load` of a 3585-byte ROM (one byte over
4096 - 0x200 = 3584) does not return an error leaving memory unmodified:
it has no length check, overwrites all of memory[0x200..0x1000)
(e.g. the byte at 0x200 becomes 7, where it was 0) and then faults with the
out-of-range index 4096 — a runtime panic, not an error return. -/
theorem Load_no_length_check_cex :
    c1data.length = 3585 ∧
    (Load c1data vm0.mem).isOk = false ∧
    (Load c1data vm0.mem).faultIdx = some 4096 ∧
    (Load c1data vm0.mem).memOf 0x200 = 7 ∧
    vm0.mem 0x200 = 0 := by
  have hc1 : c1data.length = 3585 := by
    simp only [c1data, List.length_replicate]
  obtain ⟨m', heq, hchar⟩ :=
    writeSeq_fault c1data 0x200 vm0.mem (by omega) (by omega)
  have hload : Load c1data vm0.mem = .fault 4096 m' := heq
  refine ⟨hc1, ?_, ?_, ?_, by decide⟩
  · rw [hload]; rfl
  · rw [hload]; rfl
  · rw [hload]
    show m' 0x200 = 7
    rw [hchar 0x200, if_pos (by omega)]
    decide

/-- C1 (amended): `Load` performs no length check.  For every input of at
most 4096 - 0x200 = 3584 bytes it succeeds, copying byte i of the input to
memory[0x200 + i] and leaving all other addresses unchanged.  For every
longer input the copy loop overwrites all of memory[0x200..0x1000) with the
first 3584 input bytes and then faults with the out-of-range index 4096
(a runtime panic); addresses below 0x200 are still unchanged, but memory is
mutated and no error is returned. -/
theorem Load_spec :
    (∀ (data : List Nat) (mem : Nat → Nat), data.length ≤ 4096 - 0x200 →
      ∃ m', Load data mem = .ok m' ∧
        (∀ j, 0x200 ≤ j → j < 0x200 + data.length → m' j = data.getD (j - 0x200) 0) ∧
        (∀ j, j < 0x200 ∨ 0x200 + data.length ≤ j → m' j = mem j)) ∧
    (∀ (data : List Nat) (mem : Nat → Nat), 4096 - 0x200 < data.length →
      ∃ m', Load data mem = .fault 4096 m' ∧
        (∀ j, 0x200 ≤ j → j < 4096 → m' j = data.getD (j - 0x200) 0) ∧
        (∀ j, j < 0x200 → m' j = mem j)) := by
  constructor
  · intro data mem hlen
    obtain ⟨m', heq, hchar⟩ := writeSeq_ok data 0x200 mem (by omega)
    exact ⟨m', heq,
      fun j h1 h2 => by rw [hchar j, if_pos ⟨h1, h2⟩],
      fun j h => by rw [hchar j, if_neg (by omega)]⟩
  · intro data mem hlen
    obtain ⟨m', heq, hchar⟩ := writeSeq_fault data 0x200 mem (by omega) (by omega)
    exact ⟨m', heq,
      fun j h1 h2 => by rw [hchar j, if_pos ⟨h1, h2⟩],
      fun j h => by rw [hchar j, if_neg (by omega)]⟩

/-- C1 witness: the success half of the amended statement applied to the
two-byte ROM [1, 2] over the fresh memory. -/
theorem Load_spec_witness :
    ([1, 2] : List Nat).length ≤ 4096 - 0x200 ∧
    (∃ m', Load [1, 2] vm0.mem = .ok m' ∧
      (∀ j, 0x200 ≤ j → j < 0x200 + ([1, 2] : List Nat).length →
        m' j = ([1, 2] : List Nat).getD (j - 0x200) 0) ∧
      (∀ j, j < 0x200 ∨ 0x200 + ([1, 2] : List Nat).length ≤ j → m' j = vm0.mem j)) :=
  ⟨by decide, Load_spec.1 [1, 2] vm0.mem (by decide)⟩

/-! ## C10: pc evenness is not an invariant -/

/-- C10 counterexample: pc is initialized to 0x200 by reset, but after
loading the single instruction 0x1201 (jump to 0x201) one successfully
handled cycle leaves pc = 0x201, which is odd. -/
theorem jump_odd_pc_cex :
    vm0.pc = 0x200 ∧
    (runCycles 1 c10vm).isSome = true ∧
    (optVM (runCycles 1 c10vm) vm0).pc = 0x201 ∧
    (optVM (runCycles 1 c10vm) vm0).pc % 2 = 1 := by
  decide

/-! ## C9: memory below 0x200 can be written (setBCD) -/

/-- C9 counterexample: after four successful cycles of `c9prog` (set V0 := 1,
I := 0, store BCD at mem[0..2], set V0 := 2) memory holds 1 at address 2;
the fifth cycle — another FX33 — is handled successfully and changes the
byte at address 2 (below 0x200) to 2. -/
theorem setBCD_below_0x200_cex :
    (runCycles 4 c9vm).isSome = true ∧
    (optVM (runCycles 4 c9vm) vm0).mem 2 = 1 ∧
    (runCycles 5 c9vm).isSome = true ∧
    (optVM (runCycles 5 c9vm) vm0).mem 2 = 2 ∧
    (2 : Nat) < 0x200 := by
  decide

/-! ## Per-handler inversion lemmas

For every opcode handler H of the plain group, a successful result leaves
memory unchanged and preserves the parity of pc (each adds 2 or 4 mod
2^16).  `setBCD` only preserves the pc parity; `jump`, `callSub` and
`subRet` only leave memory unchanged. -/

theorem setVx_inv (s : VM) (v' : Nat) (s' : VM) (evs : List Ev)
    (h : setVx s = .ok v' s' evs) : s'.mem = s.mem ∧ s'.pc % 2 = s.pc % 2 := by
  simp only [setVx] at h
  injection h with h1 h2 h3
  subst h2
  exact ⟨rfl, by dsimp only; omega⟩

theorem skipVxNN_inv (s : VM) (v' : Nat) (s' : VM) (evs : List Ev)
    (h : skipVxNN s = .ok v' s' evs) : s'.mem = s.mem ∧ s'.pc % 2 = s.pc % 2 := by
  simp only [skipVxNN] at h
  injection h with h1 h2 h3
  subst h2
  refine ⟨rfl, ?_⟩
  dsimp only
  split <;> omega

theorem skipVxNotNN_inv (s : VM) (v' : Nat) (s' : VM) (evs : List Ev)
    (h : skipVxNotNN s = .ok v' s' evs) : s'.mem = s.mem ∧ s'.pc % 2 = s.pc % 2 := by
  simp only [skipVxNotNN] at h
  injection h with h1 h2 h3
  subst h2
  refine ⟨rfl, ?_⟩
  dsimp only
  split <;> omega

theorem skipVxNotVy_inv (s : VM) (v' : Nat) (s' : VM) (evs : List Ev)
    (h : skipVxNotVy s = .ok v' s' evs) : s'.mem = s.mem ∧ s'.pc % 2 = s.pc % 2 := by
  simp only [skipVxNotVy] at h
  injection h with h1 h2 h3
  subst h2
  refine ⟨rfl, ?_⟩
  dsimp only
  split <;> omega

theorem incVx_inv (s : VM) (v' : Nat) (s' : VM) (evs : List Ev)
    (h : incVx s = .ok v' s' evs) : s'.mem = s.mem ∧ s'.pc % 2 = s.pc % 2 := by
  simp only [incVx] at h
  injection h with h1 h2 h3
  subst h2
  exact ⟨rfl, by dsimp only; omega⟩

theorem setVxVy_inv (s : VM) (v' : Nat) (s' : VM) (evs : List Ev)
    (h : setVxVy s = .ok v' s' evs) : s'.mem = s.mem ∧ s'.pc % 2 = s.pc % 2 := by
  simp only [setVxVy] at h
  injection h with h1 h2 h3
  subst h2
  exact ⟨rfl, by dsimp only; omega⟩

theorem setVxAndVy_inv (s : VM) (v' : Nat) (s' : VM) (evs : List Ev)
    (h : setVxAndVy s = .ok v' s' evs) : s'.mem = s.mem ∧ s'.pc % 2 = s.pc % 2 := by
  simp only [setVxAndVy] at h
  injection h with h1 h2 h3
  subst h2
  exact ⟨rfl, by dsimp only; omega⟩

theorem incVxVy_inv (s : VM) (v' : Nat) (s' : VM) (evs : List Ev)
    (h : incVxVy s = .ok v' s' evs) : s'.mem = s.mem ∧ s'.pc % 2 = s.pc % 2 := by
  simp only [incVxVy] at h
  injection h with h1 h2 h3
  subst h2
  exact ⟨rfl, by dsimp only; omega⟩

theorem decVxVy_inv (s : VM) (v' : Nat) (s' : VM) (evs : List Ev)
    (h : decVxVy s = .ok v' s' evs) : s'.mem = s.mem ∧ s'.pc % 2 = s.pc % 2 := by
  simp only [decVxVy] at h
  injection h with h1 h2 h3
  subst h2
  exact ⟨rfl, by dsimp only; omega⟩

theorem setAddress_inv (s : VM) (v' : Nat) (s' : VM) (evs : List Ev)
    (h : setAddress s = .ok v' s' evs) : s'.mem = s.mem ∧ s'.pc % 2 = s.pc % 2 := by
  simp only [setAddress] at h
  injection h with h1 h2 h3
  subst h2
  exact ⟨rfl, by dsimp only; omega⟩

theorem setVxRand_inv (s : VM) (v' : Nat) (s' : VM) (evs : List Ev)
    (h : setVxRand s = .ok v' s' evs) : s'.mem = s.mem ∧ s'.pc % 2 = s.pc % 2 := by
  simp only [setVxRand] at h
  injection h with h1 h2 h3
  subst h2
  exact ⟨rfl, by dsimp only; omega⟩

theorem getDelayTimer_inv (s : VM) (v' : Nat) (s' : VM) (evs : List Ev)
    (h : getDelayTimer s = .ok v' s' evs) : s'.mem = s.mem ∧ s'.pc % 2 = s.pc % 2 := by
  simp only [getDelayTimer] at h
  injection h with h1 h2 h3
  subst h2
  exact ⟨rfl, by dsimp only; omega⟩

theorem setDelayTimer_inv (s : VM) (v' : Nat) (s' : VM) (evs : List Ev)
    (h : setDelayTimer s = .ok v' s' evs) : s'.mem = s.mem ∧ s'.pc % 2 = s.pc % 2 := by
  simp only [setDelayTimer] at h
  injection h with h1 h2 h3
  subst h2
  exact ⟨rfl, by dsimp only; omega⟩

theorem setSoundTimer_inv (s : VM) (v' : Nat) (s' : VM) (evs : List Ev)
    (h : setSoundTimer s = .ok v' s' evs) : s'.mem = s.mem ∧ s'.pc % 2 = s.pc % 2 := by
  simp only [setSoundTimer] at h
  injection h with h1 h2 h3
  subst h2
  exact ⟨rfl, by dsimp only; omega⟩

theorem loadFont_inv (s : VM) (v' : Nat) (s' : VM) (evs : List Ev)
    (h : loadFont s = .ok v' s' evs) : s'.mem = s.mem ∧ s'.pc % 2 = s.pc % 2 := by
  simp only [loadFont] at h
  injection h with h1 h2 h3
  subst h2
  exact ⟨rfl, by dsimp only; omega⟩

theorem draw_inv (s : VM) (v' : Nat) (s' : VM) (evs : List Ev)
    (h : draw s = .ok v' s' evs) : s'.mem = s.mem ∧ s'.pc % 2 = s.pc % 2 := by
  simp only [draw] at h
  split at h
  · exact HRes.noConfusion h
  · injection h with h1 h2 h3
    subst h2
    exact ⟨rfl, by dsimp only; omega⟩

theorem skipVxKeyNotPressed_inv (s : VM) (v' : Nat) (s' : VM) (evs : List Ev)
    (h : skipVxKeyNotPressed s = .ok v' s' evs) : s'.mem = s.mem ∧ s'.pc % 2 = s.pc % 2 := by
  simp only [skipVxKeyNotPressed] at h
  split at h
  · exact HRes.noConfusion h
  · injection h with h1 h2 h3
    subst h2
    refine ⟨rfl, ?_⟩
    dsimp only
    split <;> omega

theorem regLoad_inv (s : VM) (v' : Nat) (s' : VM) (evs : List Ev)
    (h : regLoad s = .ok v' s' evs) : s'.mem = s.mem ∧ s'.pc % 2 = s.pc % 2 := by
  simp only [regLoad] at h
  split at h
  · exact HRes.noConfusion h
  · injection h with h1 h2 h3
    subst h2
    exact ⟨rfl, by dsimp only; omega⟩

theorem setBCD_pc (s : VM) (v' : Nat) (s' : VM) (evs : List Ev)
    (h : setBCD s = .ok v' s' evs) : s'.pc % 2 = s.pc % 2 := by
  simp only [setBCD] at h
  split at h
  · exact HRes.noConfusion h
  · split at h
    · exact HRes.noConfusion h
    · split at h
      · exact HRes.noConfusion h
      · injection h with h1 h2 h3
        subst h2
        dsimp only
        omega

theorem jump_mem (s : VM) (v' : Nat) (s' : VM) (evs : List Ev)
    (h : jump s = .ok v' s' evs) : s'.mem = s.mem := by
  simp only [jump] at h
  injection h with h1 h2 h3
  subst h2
  rfl

theorem callSub_mem (s : VM) (v' : Nat) (s' : VM) (evs : List Ev)
    (h : callSub s = .ok v' s' evs) : s'.mem = s.mem := by
  simp only [callSub] at h
  split at h
  · exact HRes.noConfusion h
  · injection h with h1 h2 h3
    subst h2
    rfl

theorem subRet_mem (s : VM) (v' : Nat) (s' : VM) (evs : List Ev)
    (h : subRet s = .ok v' s' evs) : s'.mem = s.mem := by
  simp only [subRet] at h
  split at h
  · exact HRes.noConfusion h
  · injection h with h1 h2 h3
    subst h2
    rfl

/-- The compound 0x8 family: every successful secondary handler leaves
memory unchanged and preserves pc parity. -/
theorem handle0x8000_inv (s : VM) (v' : Nat) (s' : VM) (evs : List Ev)
    (h : handle0x8000 s = .ok v' s' evs) : s'.mem = s.mem ∧ s'.pc % 2 = s.pc % 2 := by
  simp only [handle0x8000] at h
  split_ifs at h
  · exact setVxVy_inv _ _ _ _ h
  · exact setVxAndVy_inv _ _ _ _ h
  · exact incVxVy_inv _ _ _ _ h
  · exact decVxVy_inv _ _ _ _ h

/-- The compound 0xE family. -/
theorem handle0xE000_inv (s : VM) (v' : Nat) (s' : VM) (evs : List Ev)
    (h : handle0xE000 s = .ok v' s' evs) : s'.mem = s.mem ∧ s'.pc % 2 = s.pc % 2 := by
  simp only [handle0xE000] at h
  split_ifs at h
  exact skipVxKeyNotPressed_inv _ _ _ _ h

/-- The compound 0xF family preserves pc parity. -/
theorem handle0xF000_pc (s : VM) (v' : Nat) (s' : VM) (evs : List Ev)
    (h : handle0xF000 s = .ok v' s' evs) : s'.pc % 2 = s.pc % 2 := by
  simp only [handle0xF000] at h
  split_ifs at h
  · exact (getDelayTimer_inv _ _ _ _ h).2
  · exact (setDelayTimer_inv _ _ _ _ h).2
  · exact (setSoundTimer_inv _ _ _ _ h).2
  · exact (loadFont_inv _ _ _ _ h).2
  · exact setBCD_pc _ _ _ _ h
  · exact (regLoad_inv _ _ _ _ h).2

/-- The compound 0xF family leaves memory unchanged except for FX33. -/
theorem handle0xF000_mem (s : VM) (v' : Nat) (s' : VM) (evs : List Ev)
    (hne : s.opc % 256 ≠ 0x33)
    (h : handle0xF000 s = .ok v' s' evs) : s'.mem = s.mem := by
  simp only [handle0xF000] at h
  split_ifs at h
  · exact (getDelayTimer_inv _ _ _ _ h).1
  · exact (setDelayTimer_inv _ _ _ _ h).1
  · exact (setSoundTimer_inv _ _ _ _ h).1
  · exact (loadFont_inv _ _ _ _ h).1
  · exact (regLoad_inv _ _ _ _ h).1

/-- The compound 0x0 family: only subRet can succeed, and it leaves memory
unchanged. -/
theorem handle0x0000_mem (s : VM) (v' : Nat) (s' : VM) (evs : List Ev)
    (h : handle0x0000 s = .ok v' s' evs) : s'.mem = s.mem := by
  simp only [handle0x0000, clrDisp, callSys] at h
  split_ifs at h
  exact subRet_mem _ _ _ _ h

/-- If the low byte is not 0xEE (return), no instruction of the 0x0 family
succeeds (clrDisp and callSys are stubs that always error). -/
theorem handle0x0000_no_ok (s : VM) (v' : Nat) (s' : VM) (evs : List Ev)
    (hne : s.opc % 256 ≠ 0xEE)
    (h : handle0x0000 s = .ok v' s' evs) : False := by
  simp only [handle0x0000, clrDisp, callSys] at h
  split_ifs at h

/-- A successful `handle` comes from a successful handler found by
`dispatch`. -/
theorem handle_ok_elim (s : VM) (s' : VM) (evs : List Ev) (h : handle s = .ok s' evs) :
    ∃ name v', dispatch s = some (name, .ok v' s' evs) := by
  unfold handle at h
  cases hd : dispatch s with
  | none => rw [hd] at h; exact CycleRes.noConfusion h
  | some p =>
    obtain ⟨name, r⟩ := p
    rw [hd] at h
    cases r with
    | ok v t e =>
      injection h with h1 h2
      subst h1 h2
      exact ⟨name, v, rfl⟩
    | err v m => exact CycleRes.noConfusion h
    | fault i => exact CycleRes.noConfusion h

/-- Case analysis on the dispatch table: a matched handler is one of the 14
registered entries, keyed by the top nibble. -/
theorem dispatch_elim (s : VM) (name : String) (r : HRes)
    (hd : dispatch s = some (name, r)) :
    (s.opc / 4096 % 16 = 0x0 ∧ r = handle0x0000 s) ∨
    (s.opc / 4096 % 16 = 0x1 ∧ r = jump s) ∨
    (s.opc / 4096 % 16 = 0x2 ∧ r = callSub s) ∨
    (s.opc / 4096 % 16 = 0x3 ∧ r = skipVxNN s) ∨
    (s.opc / 4096 % 16 = 0x4 ∧ r = skipVxNotNN s) ∨
    (s.opc / 4096 % 16 = 0x6 ∧ r = setVx s) ∨
    (s.opc / 4096 % 16 = 0x7 ∧ r = incVx s) ∨
    (s.opc / 4096 % 16 = 0x8 ∧ r = handle0x8000 s) ∨
    (s.opc / 4096 % 16 = 0x9 ∧ r = skipVxNotVy s) ∨
    (s.opc / 4096 % 16 = 0xA ∧ r = setAddress s) ∨
    (s.opc / 4096 % 16 = 0xC ∧ r = setVxRand s) ∨
    (s.opc / 4096 % 16 = 0xD ∧ r = draw s) ∨
    (s.opc / 4096 % 16 = 0xE ∧ r = handle0xE000 s) ∨
    (s.opc / 4096 % 16 = 0xF ∧ r = handle0xF000 s) := by
  unfold dispatch at hd
  by_cases h0 : s.opc / 4096 % 16 = 0x0
  · rw [if_pos h0] at hd; injection hd with hd1; cases hd1; exact Or.inl ⟨h0, rfl⟩
  rw [if_neg h0] at hd
  by_cases h1 : s.opc / 4096 % 16 = 0x1
  · rw [if_pos h1] at hd; injection hd with hd1; cases hd1
    exact Or.inr (Or.inl ⟨h1, rfl⟩)
  rw [if_neg h1] at hd
  by_cases h2 : s.opc / 4096 % 16 = 0x2
  · rw [if_pos h2] at hd; injection hd with hd1; cases hd1
    exact Or.inr (Or.inr (Or.inl ⟨h2, rfl⟩))
  rw [if_neg h2] at hd
  by_cases h3 : s.opc / 4096 % 16 = 0x3
  · rw [if_pos h3] at hd; injection hd with hd1; cases hd1
    exact Or.inr (Or.inr (Or.inr (Or.inl ⟨h3, rfl⟩)))
  rw [if_neg h3] at hd
  by_cases h4 : s.opc / 4096 % 16 = 0x4
  · rw [if_pos h4] at hd; injection hd with hd1; cases hd1
    exact Or.inr (Or.inr (Or.inr (Or.inr (Or.inl ⟨h4, rfl⟩))))
  rw [if_neg h4] at hd
  by_cases h6 : s.opc / 4096 % 16 = 0x6
  · rw [if_pos h6] at hd; injection hd with hd1; cases hd1
    exact Or.inr (Or.inr (Or.inr (Or.inr (Or.inr (Or.inl ⟨h6, rfl⟩)))))
  rw [if_neg h6] at hd
  by_cases h7 : s.opc / 4096 % 16 = 0x7
  · rw [if_pos h7] at hd; injection hd with hd1; cases hd1
    exact Or.inr (Or.inr (Or.inr (Or.inr (Or.inr (Or.inr (Or.inl ⟨h7, rfl⟩))))))
  rw [if_neg h7] at hd
  by_cases h8 : s.opc / 4096 % 16 = 0x8
  · rw [if_pos h8] at hd; injection hd with hd1; cases hd1
    exact Or.inr (Or.inr (Or.inr (Or.inr (Or.inr (Or.inr (Or.inr (Or.inl ⟨h8, rfl⟩)))))))
  rw [if_neg h8] at hd
  by_cases h9 : s.opc / 4096 % 16 = 0x9
  · rw [if_pos h9] at hd; injection hd with hd1; cases hd1
    exact Or.inr (Or.inr (Or.inr (Or.inr (Or.inr (Or.inr (Or.inr (Or.inr (Or.inl
      ⟨h9, rfl⟩))))))))
  rw [if_neg h9] at hd
  by_cases hA : s.opc / 4096 % 16 = 0xA
  · rw [if_pos hA] at hd; injection hd with hd1; cases hd1
    exact Or.inr (Or.inr (Or.inr (Or.inr (Or.inr (Or.inr (Or.inr (Or.inr (Or.inr
      (Or.inl ⟨hA, rfl⟩)))))))))
  rw [if_neg hA] at hd
  by_cases hC : s.opc / 4096 % 16 = 0xC
  · rw [if_pos hC] at hd; injection hd with hd1; cases hd1
    exact Or.inr (Or.inr (Or.inr (Or.inr (Or.inr (Or.inr (Or.inr (Or.inr (Or.inr
      (Or.inr (Or.inl ⟨hC, rfl⟩))))))))))
  rw [if_neg hC] at hd
  by_cases hD : s.opc / 4096 % 16 = 0xD
  · rw [if_pos hD] at hd; injection hd with hd1; cases hd1
    exact Or.inr (Or.inr (Or.inr (Or.inr (Or.inr (Or.inr (Or.inr (Or.inr (Or.inr
      (Or.inr (Or.inr (Or.inl ⟨hD, rfl⟩)))))))))))
  rw [if_neg hD] at hd
  by_cases hE : s.opc / 4096 % 16 = 0xE
  · rw [if_pos hE] at hd; injection hd with hd1; cases hd1
    exact Or.inr (Or.inr (Or.inr (Or.inr (Or.inr (Or.inr (Or.inr (Or.inr (Or.inr
      (Or.inr (Or.inr (Or.inr (Or.inl ⟨hE, rfl⟩))))))))))))
  rw [if_neg hE] at hd
  by_cases hF : s.opc / 4096 % 16 = 0xF
  · rw [if_pos hF] at hd; injection hd with hd1; cases hd1
    exact Or.inr (Or.inr (Or.inr (Or.inr (Or.inr (Or.inr (Or.inr (Or.inr (Or.inr
      (Or.inr (Or.inr (Or.inr (Or.inr ⟨hF, rfl⟩))))))))))))
  rw [if_neg hF] at hd
  exact Option.noConfusion hd

/-- Every successfully handled instruction that is not FX33 leaves all of
memory unchanged. -/
theorem handle_mem (s : VM) (s' : VM) (evs : List Ev)
    (hne : ¬(s.opc / 4096 % 16 = 0xF ∧ s.opc % 256 = 0x33))
    (h : handle s = .ok s' evs) : s'.mem = s.mem := by
  obtain ⟨name, v', hd⟩ := handle_ok_elim s s' evs h
  rcases dispatch_elim s name _ hd with
    ⟨hf, hr⟩ | ⟨hf, hr⟩ | ⟨hf, hr⟩ | ⟨hf, hr⟩ | ⟨hf, hr⟩ | ⟨hf, hr⟩ | ⟨hf, hr⟩ |
    ⟨hf, hr⟩ | ⟨hf, hr⟩ | ⟨hf, hr⟩ | ⟨hf, hr⟩ | ⟨hf, hr⟩ | ⟨hf, hr⟩ | ⟨hf, hr⟩
  · exact handle0x0000_mem _ _ _ _ hr.symm
  · exact jump_mem _ _ _ _ hr.symm
  · exact callSub_mem _ _ _ _ hr.symm
  · exact (skipVxNN_inv _ _ _ _ hr.symm).1
  · exact (skipVxNotNN_inv _ _ _ _ hr.symm).1
  · exact (setVx_inv _ _ _ _ hr.symm).1
  · exact (incVx_inv _ _ _ _ hr.symm).1
  · exact (handle0x8000_inv _ _ _ _ hr.symm).1
  · exact (skipVxNotVy_inv _ _ _ _ hr.symm).1
  · exact (setAddress_inv _ _ _ _ hr.symm).1
  · exact (setVxRand_inv _ _ _ _ hr.symm).1
  · exact (draw_inv _ _ _ _ hr.symm).1
  · exact (handle0xE000_inv _ _ _ _ hr.symm).1
  · exact handle0xF000_mem _ _ _ _ (fun hc => hne ⟨hf, hc⟩) hr.symm

/-- Every successfully handled instruction that is not a jump (1NNN), a call
(2NNN) or a return (00EE) preserves the parity of pc. -/
theorem handle_pc (s : VM) (s' : VM) (evs : List Ev)
    (hne1 : s.opc / 4096 % 16 ≠ 0x1) (hne2 : s.opc / 4096 % 16 ≠ 0x2)
    (hne0 : ¬(s.opc / 4096 % 16 = 0x0 ∧ s.opc % 256 = 0xEE))
    (h : handle s = .ok s' evs) : s'.pc % 2 = s.pc % 2 := by
  obtain ⟨name, v', hd⟩ := handle_ok_elim s s' evs h
  rcases dispatch_elim s name _ hd with
    ⟨hf, hr⟩ | ⟨hf, hr⟩ | ⟨hf, hr⟩ | ⟨hf, hr⟩ | ⟨hf, hr⟩ | ⟨hf, hr⟩ | ⟨hf, hr⟩ |
    ⟨hf, hr⟩ | ⟨hf, hr⟩ | ⟨hf, hr⟩ | ⟨hf, hr⟩ | ⟨hf, hr⟩ | ⟨hf, hr⟩ | ⟨hf, hr⟩
  · exact (handle0x0000_no_ok _ _ _ _ (fun hc => hne0 ⟨hf, hc⟩) hr.symm).elim
  · exact absurd hf hne1
  · exact absurd hf hne2
  · exact (skipVxNN_inv _ _ _ _ hr.symm).2
  · exact (skipVxNotNN_inv _ _ _ _ hr.symm).2
  · exact (setVx_inv _ _ _ _ hr.symm).2
  · exact (incVx_inv _ _ _ _ hr.symm).2
  · exact (handle0x8000_inv _ _ _ _ hr.symm).2
  · exact (skipVxNotVy_inv _ _ _ _ hr.symm).2
  · exact (setAddress_inv _ _ _ _ hr.symm).2
  · exact (setVxRand_inv _ _ _ _ hr.symm).2
  · exact (draw_inv _ _ _ _ hr.symm).2
  · exact (handle0xE000_inv _ _ _ _ hr.symm).2
  · exact handle0xF000_pc _ _ _ _ hr.symm

/-- Timer service does not touch memory or the program counter. -/
theorem updateTimers_keep (s : VM) :
    (updateTimers s).1.mem = s.mem ∧ (updateTimers s).1.pc = s.pc := by
  simp only [updateTimers]
  split_ifs <;> exact ⟨rfl, rfl⟩

/-- One step of `Cycle` after a successful fetch, written out. -/
theorem Cycle_eq_of_fetch (s : VM) (tick : Bool) (op : Nat) (hf : fetch s = .ok op) :
    Cycle s tick =
      (match handle { s with opc := op } with
       | .ok s1 evs =>
           if tick then
             match updateTimers s1 with
             | (s2, beep) => CycleRes.ok s2 (evs ++ if beep then [Ev.beep] else [])
           else .ok s1 evs
       | .err e => .err e
       | .fault idx => .fault idx) := by
  unfold Cycle
  rw [hf]

/-- A successful `Cycle` factors through a successful `handle` on the
fetched opcode, with memory and pc unchanged by the timer service. -/
theorem Cycle_ok_elim (s : VM) (tick : Bool) (s' : VM) (evs : List Ev) (op : Nat)
    (hf : fetch s = .ok op) (h : Cycle s tick = .ok s' evs) :
    ∃ t e, handle { s with opc := op } = .ok t e ∧ s'.mem = t.mem ∧ s'.pc = t.pc := by
  rw [Cycle_eq_of_fetch s tick op hf] at h
  cases hh : handle { s with opc := op } with
  | ok t e =>
    rw [hh] at h
    cases tick with
    | false =>
      injection h with h1 h2
      subst h1
      exact ⟨t, e, rfl, rfl, rfl⟩
    | true =>
      replace h : (match updateTimers t with
        | (s2, beep) => CycleRes.ok s2 (e ++ if beep = true then [Ev.beep] else [])) =
          CycleRes.ok s' evs := h
      cases hu : updateTimers t with
      | mk t2 b2 =>
        rw [hu] at h
        injection h with h1 h2
        subst h1
        have hk := updateTimers_keep t
        rw [hu] at hk
        exact ⟨t, e, rfl, hk.1, hk.2⟩
  | err e => rw [hh] at h; exact CycleRes.noConfusion h
  | fault i => rw [hh] at h; exact CycleRes.noConfusion h

/-- Loaded bytes never land below the start offset of the copy loop, in
both the normal and the overrunning case. -/
theorem writeSeq_memOf_below :
    ∀ (data : List Nat) (addr : Nat) (mem : Nat → Nat) (j : Nat), j < addr →
      (writeSeq data addr mem).memOf j = mem j := by
  intro data
  induction data with
  | nil => intro addr mem j h; rfl
  | cons b rest ih =>
    intro addr mem j h
    simp only [writeSeq]
    split
    · rw [ih (addr + 1) _ j (by omega), upd_ne _ _ _ _ (by omega)]
    · rfl

/-- C9 (amended): `Load` writes only at addresses 0x200 and above — every
address below 0x200 is untouched whether the copy succeeds or overruns —
and no opcode handler other than the BCD store FX33 writes to memory at
all: every successfully handled non-FX33 instruction leaves memory
pointwise unchanged.  (FX33 writes memory[I..I+2], which lies below 0x200
whenever I < 0x1FE, so the claimed invariant fails exactly through FX33.) -/
theorem mem_protect_spec :
    (∀ (data : List Nat) (mem : Nat → Nat) (j : Nat), j < 0x200 →
      (Load data mem).memOf j = mem j) ∧
    (∀ (s : VM) (tick : Bool) (s' : VM) (evs : List Ev) (op : Nat),
      fetch s = .ok op → ¬(op / 4096 % 16 = 0xF ∧ op % 256 = 0x33) →
      Cycle s tick = .ok s' evs → s'.mem = s.mem) := by
  constructor
  · intro data mem j hj
    exact writeSeq_memOf_below data 0x200 mem j hj
  · intro s tick s' evs op hf hne h
    obtain ⟨t, e, hh, hm, _⟩ := Cycle_ok_elim s tick s' evs op hf h
    have ht : t.mem = ({ s with opc := op } : VM).mem := handle_mem _ _ _ hne hh
    rw [hm, ht]

/-- C9 witness: the cycle part of the amended statement applied to the
instruction 0x6005 (a register set) fetched at 0x200. -/
theorem mem_protect_witness :
    fetch c9w = Except.ok 0x6005 ∧
    ¬((0x6005 : Nat) / 4096 % 16 = 0xF ∧ (0x6005 : Nat) % 256 = 0x33) ∧
    ((Cycle c9w false).stateD c9w).mem = c9w.mem :=
  ⟨rfl, by decide,
    mem_protect_spec.2 c9w false _ _ 0x6005 rfl (by decide) rfl⟩

/-- C10 (amended): the program counter is initialized to 0x200 by `reset`,
and every successfully handled instruction other than a jump (1NNN), a call
(2NNN) or a return (00EE) preserves the parity of pc (each adds 2 or 4 mod
2^16).  Jump and call set pc to the literal NNN and return sets it to
stack[sp] + 2, so pc stays even only while those targets are even: a jump
to an odd NNN makes pc odd. -/
theorem pc_parity_spec :
    (∀ (font : Nat → Nat) (s : VM), (reset font s).pc = 0x200) ∧
    (∀ (s : VM) (tick : Bool) (s' : VM) (evs : List Ev) (op : Nat),
      fetch s = .ok op →
      op / 4096 % 16 ≠ 0x1 → op / 4096 % 16 ≠ 0x2 →
      ¬(op / 4096 % 16 = 0x0 ∧ op % 256 = 0xEE) →
      Cycle s tick = .ok s' evs → s'.pc % 2 = s.pc % 2) := by
  constructor
  · intro font s; rfl
  · intro s tick s' evs op hf h1 h2 h0 h
    obtain ⟨t, e, hh, _, hp⟩ := Cycle_ok_elim s tick s' evs op hf h
    have ht : t.pc % 2 = ({ s with opc := op } : VM).pc % 2 :=
      handle_pc _ _ _ h1 h2 h0 hh
    rw [hp, ht]

/-- C10 witness: the parity part applied to the instruction 0x6005 fetched
at 0x200. -/
theorem pc_parity_witness :
    fetch c9w = Except.ok 0x6005 ∧
    (0x6005 : Nat) / 4096 % 16 ≠ 0x1 ∧ (0x6005 : Nat) / 4096 % 16 ≠ 0x2 ∧
    ¬((0x6005 : Nat) / 4096 % 16 = 0x0 ∧ (0x6005 : Nat) % 256 = 0xEE) ∧
    ((Cycle c9w false).stateD c9w).pc % 2 = c9w.pc % 2 :=
  ⟨rfl, by decide, by decide, by decide,
    pc_parity_spec.2 c9w false _ _ 0x6005 rfl (by decide) (by decide) (by decide) rfl⟩

/-! ## C6: unsupported opcodes and error propagation -/

/-- Top nibbles 0x5 and 0xB have no entry in the handler map. -/
theorem dispatch_none (s : VM)
    (h : s.opc / 4096 % 16 = 0x5 ∨ s.opc / 4096 % 16 = 0xB) :
    dispatch s = none := by
  have k : ∀ m : Nat, m ≠ 5 → m ≠ 11 → s.opc / 4096 % 16 ≠ m := by omega
  unfold dispatch
  rw [if_neg (k 0 (by omega) (by omega)), if_neg (k 1 (by omega) (by omega)),
    if_neg (k 2 (by omega) (by omega)), if_neg (k 3 (by omega) (by omega)),
    if_neg (k 4 (by omega) (by omega)), if_neg (k 6 (by omega) (by omega)),
    if_neg (k 7 (by omega) (by omega)), if_neg (k 8 (by omega) (by omega)),
    if_neg (k 9 (by omega) (by omega)), if_neg (k 10 (by omega) (by omega)),
    if_neg (k 12 (by omega) (by omega)), if_neg (k 13 (by omega) (by omega)),
    if_neg (k 14 (by omega) (by omega)), if_neg (k 15 (by omega) (by omega))]

/-- The 0x8 family dispatches to `handle0x8000`. -/
theorem dispatch_fam8 (s : VM) (h : s.opc / 4096 % 16 = 0x8) :
    dispatch s = some ("handle0x8000", handle0x8000 s) := by
  have k : ∀ m : Nat, m ≠ 8 → s.opc / 4096 % 16 ≠ m := by omega
  unfold dispatch
  rw [if_neg (k 0 (by omega)), if_neg (k 1 (by omega)), if_neg (k 2 (by omega)),
    if_neg (k 3 (by omega)), if_neg (k 4 (by omega)), if_neg (k 6 (by omega)),
    if_neg (k 7 (by omega)), if_pos h]

/-- The 0xE family dispatches to `handle0xE000`. -/
theorem dispatch_famE (s : VM) (h : s.opc / 4096 % 16 = 0xE) :
    dispatch s = some ("handle0xE000", handle0xE000 s) := by
  have k : ∀ m : Nat, m ≠ 14 → s.opc / 4096 % 16 ≠ m := by omega
  unfold dispatch
  rw [if_neg (k 0 (by omega)), if_neg (k 1 (by omega)), if_neg (k 2 (by omega)),
    if_neg (k 3 (by omega)), if_neg (k 4 (by omega)), if_neg (k 6 (by omega)),
    if_neg (k 7 (by omega)), if_neg (k 8 (by omega)), if_neg (k 9 (by omega)),
    if_neg (k 10 (by omega)), if_neg (k 12 (by omega)), if_neg (k 13 (by omega)),
    if_pos h]

/-- The 0xF family dispatches to `handle0xF000`. -/
theorem dispatch_famF (s : VM) (h : s.opc / 4096 % 16 = 0xF) :
    dispatch s = some ("handle0xF000", handle0xF000 s) := by
  have k : ∀ m : Nat, m ≠ 15 → s.opc / 4096 % 16 ≠ m := by omega
  unfold dispatch
  rw [if_neg (k 0 (by omega)), if_neg (k 1 (by omega)), if_neg (k 2 (by omega)),
    if_neg (k 3 (by omega)), if_neg (k 4 (by omega)), if_neg (k 6 (by omega)),
    if_neg (k 7 (by omega)), if_neg (k 8 (by omega)), if_neg (k 9 (by omega)),
    if_neg (k 10 (by omega)), if_neg (k 12 (by omega)), if_neg (k 13 (by omega)),
    if_neg (k 14 (by omega)), if_pos h]

/-- An unmatched secondary code of the 0x8 family is the default error with
the raw opcode value. -/
theorem handle0x8000_default (s : VM) (h0 : s.opc % 16 ≠ 0x0) (h2 : s.opc % 16 ≠ 0x2)
    (h4 : s.opc % 16 ≠ 0x4) (h5 : s.opc % 16 ≠ 0x5) :
    handle0x8000 s = .err (s.opc % 65536) "TODO: handle0x8000" := by
  unfold handle0x8000
  rw [if_neg h0, if_neg h2, if_neg h4, if_neg h5]

/-- An unmatched secondary code of the 0xE family is the default error. -/
theorem handle0xE000_default (s : VM) (hA1 : s.opc % 256 ≠ 0xA1) :
    handle0xE000 s = .err (s.opc % 65536) "TODO: handle0xF000" := by
  unfold handle0xE000
  rw [if_neg hA1]

/-- An unmatched secondary code of the 0xF family is the default error. -/
theorem handle0xF000_default (s : VM) (h07 : s.opc % 256 ≠ 0x07)
    (h15 : s.opc % 256 ≠ 0x15) (h18 : s.opc % 256 ≠ 0x18) (h29 : s.opc % 256 ≠ 0x29)
    (h33 : s.opc % 256 ≠ 0x33) (h65 : s.opc % 256 ≠ 0x65) :
    handle0xF000 s = .err (s.opc % 65536) "TODO: handle0xF000" := by
  unfold handle0xF000
  rw [if_neg h07, if_neg h15, if_neg h18, if_neg h29, if_neg h33, if_neg h65]

/-- A handler error makes `Cycle` fail with the same error (no timer
service on the error path). -/
theorem Cycle_err (s : VM) (tick : Bool) (op : Nat) (e : CycleErr)
    (hf : fetch s = .ok op) (hh : handle { s with opc := op } = .err e) :
    Cycle s tick = .err e := by
  rw [Cycle_eq_of_fetch s tick op hf, hh]

/-- A missing dispatch entry makes `handle` fail with the raw opcode. -/
theorem handle_unsupported (s : VM) (hd : dispatch s = none) :
    handle s = .err (.unsupported s.opc) := by
  unfold handle
  rw [hd]

/-- A dispatched handler error is wrapped with the opcode name and value. -/
theorem handle_err_of_dispatch (s : VM) (name : String) (val : Nat) (msg : String)
    (hd : dispatch s = some (name, .err val msg)) :
    handle s = .err (.handlerFail name val msg) := by
  unfold handle
  rw [hd]

/-- C6: a fetched instruction whose top nibble has no registered handler
(0x5 or 0xB) makes `Cycle` return the unsupported-opcode error carrying the
raw instruction; an unmatched secondary code in the 0x8 / 0xE / 0xF
families makes `Cycle` return the wrapped default error carrying the raw
instruction value (`opc & 0xFFFF`); and every handler error propagates to
the caller of `Cycle` annotated with the opcode name and handled value,
never swallowed.  (In the 0x0 family every low byte matches a secondary
handler — `callSys` is a catch-all — so no unmatched case exists there.) -/
theorem dispatch_errors_spec :
    (∀ (s : VM) (tick : Bool) (op : Nat), fetch s = .ok op →
      (op / 4096 % 16 = 0x5 ∨ op / 4096 % 16 = 0xB) →
      Cycle s tick = .err (.unsupported op)) ∧
    (∀ (s : VM) (tick : Bool) (op : Nat), fetch s = .ok op →
      op / 4096 % 16 = 0x8 →
      op % 16 ≠ 0x0 → op % 16 ≠ 0x2 → op % 16 ≠ 0x4 → op % 16 ≠ 0x5 →
      Cycle s tick = .err (.handlerFail "handle0x8000" (op % 65536) "TODO: handle0x8000")) ∧
    (∀ (s : VM) (tick : Bool) (op : Nat), fetch s = .ok op →
      op / 4096 % 16 = 0xE → op % 256 ≠ 0xA1 →
      Cycle s tick = .err (.handlerFail "handle0xE000" (op % 65536) "TODO: handle0xF000")) ∧
    (∀ (s : VM) (tick : Bool) (op : Nat), fetch s = .ok op →
      op / 4096 % 16 = 0xF →
      op % 256 ≠ 0x07 → op % 256 ≠ 0x15 → op % 256 ≠ 0x18 →
      op % 256 ≠ 0x29 → op % 256 ≠ 0x33 → op % 256 ≠ 0x65 →
      Cycle s tick = .err (.handlerFail "handle0xF000" (op % 65536) "TODO: handle0xF000")) ∧
    (∀ (s : VM) (tick : Bool) (op : Nat) (name : String) (val : Nat) (msg : String),
      fetch s = .ok op →
      dispatch { s with opc := op } = some (name, .err val msg) →
      Cycle s tick = .err (.handlerFail name val msg)) := by
  refine ⟨?_, ?_, ?_, ?_, ?_⟩
  · intro s tick op hf hc
    exact Cycle_err s tick op _ hf
      (handle_unsupported _ (dispatch_none _ hc))
  · intro s tick op hf hc h0 h2 h4 h5
    exact Cycle_err s tick op _ hf
      (handle_err_of_dispatch _ _ _ _
        (by rw [dispatch_fam8 _ hc, handle0x8000_default _ h0 h2 h4 h5]))
  · intro s tick op hf hc hA1
    exact Cycle_err s tick op _ hf
      (handle_err_of_dispatch _ _ _ _
        (by rw [dispatch_famE _ hc, handle0xE000_default _ hA1]))
  · intro s tick op hf hc h07 h15 h18 h29 h33 h65
    exact Cycle_err s tick op _ hf
      (handle_err_of_dispatch _ _ _ _
        (by rw [dispatch_famF _ hc, handle0xF000_default _ h07 h15 h18 h29 h33 h65]))
  · intro s tick op name val msg hf hd
    exact Cycle_err s tick op _ hf (handle_err_of_dispatch _ _ _ _ hd)

/-- C6 witness: the unsupported-opcode part applied to the fetched
instruction 0x5000. -/
theorem dispatch_errors_witness :
    fetch c6vm = Except.ok 0x5000 ∧
    ((0x5000 : Nat) / 4096 % 16 = 0x5 ∨ (0x5000 : Nat) / 4096 % 16 = 0xB) ∧
    Cycle c6vm false = CycleRes.err (.unsupported 0x5000) :=
  ⟨rfl, by decide, dispatch_errors_spec.1 c6vm false 0x5000 rfl (by decide)⟩

/-! ## C3: draw -/

/-- Cells of bits at positions ≥ lo lie at or beyond `x + lo + base`. -/
theorem hitBitsFrom_false_of_lt (pixel x base j : Nat) :
    ∀ (cnt lo : Nat), j < x + lo + base → hitBitsFrom pixel x base j lo cnt = false := by
  intro cnt
  induction cnt with
  | zero => intro lo _; rfl
  | succ n ih =>
    intro lo h
    have hne : (j == x + lo + base) = false := by
      rw [beq_eq_false_iff_ne]
      omega
    simp [hitBitsFrom, hne, ih (lo + 1) (by omega)]

/-- A hit bit determines the cell shape: `j = x + b + base` for some bit
`b` in range. -/
theorem hitBitsFrom_bounds (pixel x base j : Nat) :
    ∀ (cnt lo : Nat), hitBitsFrom pixel x base j lo cnt = true →
      ∃ b, lo ≤ b ∧ b < lo + cnt ∧ j = x + b + base := by
  intro cnt
  induction cnt with
  | zero => intro lo h; exact absurd h (by simp [hitBitsFrom])
  | succ n ih =>
    intro lo h
    simp only [hitBitsFrom, Bool.or_eq_true, Bool.and_eq_true, beq_iff_eq] at h
    rcases h with ⟨hj, _⟩ | h
    · exact ⟨lo, le_refl _, by omega, hj⟩
    · obtain ⟨b, hb1, hb2, hb3⟩ := ih (lo + 1) h
      exact ⟨b, by omega, by omega, hb3⟩

/-- Collision scanning only looks at the cells of its own bit range. -/
theorem collideBitsFrom_congr (pixel x base : Nat) (d1 d2 : Nat → Nat) :
    ∀ (cnt lo : Nat),
      (∀ b, lo ≤ b → b < lo + cnt → d1 (x + b + base) = d2 (x + b + base)) →
      collideBitsFrom pixel x base d1 lo cnt = collideBitsFrom pixel x base d2 lo cnt := by
  intro cnt
  induction cnt with
  | zero => intro lo _; rfl
  | succ n ih =>
    intro lo hag
    simp only [collideBitsFrom]
    rw [hag lo (le_refl _) (by omega), ih (lo + 1) (fun b h1 h2 => hag b (by omega) (by omega))]

/-- A hit row/bit determines the cell shape `j = x + b + (y + r) * 64`. -/
theorem hitRowsFrom_bounds (mem : Nat → Nat) (i x y j : Nat) :
    ∀ (cnt lo : Nat), hitRowsFrom mem i x y j lo cnt = true →
      ∃ r b, lo ≤ r ∧ r < lo + cnt ∧ b < 8 ∧ j = x + b + (y + r) * 64 := by
  intro cnt
  induction cnt with
  | zero => intro lo h; exact absurd h (by simp [hitRowsFrom])
  | succ n ih =>
    intro lo h
    simp only [hitRowsFrom, Bool.or_eq_true] at h
    rcases h with h | h
    · obtain ⟨b, _, hb2, hb3⟩ := hitBitsFrom_bounds _ _ _ _ 8 0 h
      exact ⟨lo, b, le_refl _, by omega, by omega, hb3⟩
    · obtain ⟨r, b, hr1, hr2, hb, hj⟩ := ih (lo + 1) h
      exact ⟨r, b, by omega, by omega, hb, hj⟩

/-- Row collision scanning only looks at the cells of its own row range. -/
theorem collideRowsFrom_congr (mem : Nat → Nat) (i x y : Nat) (d1 d2 : Nat → Nat) :
    ∀ (cnt lo : Nat),
      (∀ r b, lo ≤ r → r < lo + cnt → b < 8 →
        d1 (x + b + (y + r) * 64) = d2 (x + b + (y + r) * 64)) →
      collideRowsFrom mem i x y d1 lo cnt = collideRowsFrom mem i x y d2 lo cnt := by
  intro cnt
  induction cnt with
  | zero => intro lo _; rfl
  | succ n ih =>
    intro lo hag
    simp only [collideRowsFrom]
    rw [collideBitsFrom_congr _ _ _ _ _ 8 0
        (fun b h1 h2 => hag lo b (le_refl _) (by omega) (by omega)),
      ih (lo + 1) (fun r b h1 h2 h3 => hag r b (by omega) (by omega) h3)]

/-- The inner draw loop, characterized per cell: when every touched cell is
inside the framebuffer, the loop succeeds, each hit cell is XORed with 1
(each cell at most once — bit cells within a row are pairwise distinct),
and the collision accumulator becomes 1 exactly when some set bit lands on
a cell that held 1 before the loop. -/
theorem drawBits_ok (pixel x base : Nat) :
    ∀ (cnt cX : Nat) (disp : Nat → Nat) (vf : Nat),
      (∀ b, cX ≤ b → b < cX + cnt → x + b + base < 2048) →
      ∃ disp' vf',
        drawBits pixel x base cnt cX disp vf = .ok (disp', vf') ∧
        (∀ j, disp' j =
          if hitBitsFrom pixel x base j cX cnt then disp j ^^^ 1 else disp j) ∧
        vf' = (if collideBitsFrom pixel x base disp cX cnt then 1 else vf) := by
  intro cnt
  induction cnt with
  | zero =>
    intro cX disp vf _
    exact ⟨disp, vf, rfl, fun j => by simp [hitBitsFrom], by simp [collideBitsFrom]⟩
  | succ n ih =>
    intro cX disp vf hb
    by_cases hbit : pixel &&& (128 >>> cX) = 0
    · obtain ⟨d', v', heq, hcell, hvf⟩ :=
        ih (cX + 1) disp vf (fun b h1 h2 => hb b (by omega) (by omega))
      refine ⟨d', v', ?_, ?_, ?_⟩
      · simp only [drawBits, if_pos hbit]
        exact heq
      · intro j
        rw [hcell j]
        have hh : hitBitsFrom pixel x base j cX (n + 1) =
            hitBitsFrom pixel x base j (cX + 1) n := by
          simp [hitBitsFrom, hbit]
        rw [hh]
      · rw [hvf]
        have hc : collideBitsFrom pixel x base disp cX (n + 1) =
            collideBitsFrom pixel x base disp (cX + 1) n := by
          simp [collideBitsFrom, hbit]
        rw [hc]
    · have hidx : x + cX + base < 2048 := hb cX (le_refl _) (by omega)
      have hmod : (x + cX + base) % 65536 = x + cX + base :=
        Nat.mod_eq_of_lt (by omega)
      have hbt : (pixel &&& (128 >>> cX) != 0) = true := by
        simp [bne_iff_ne, hbit]
      obtain ⟨d', v', heq, hcell, hvf⟩ :=
        ih (cX + 1) (upd disp (x + cX + base) (disp (x + cX + base) ^^^ 1))
          (if disp (x + cX + base) = 1 then 1 else vf)
          (fun b h1 h2 => hb b (by omega) (by omega))
      refine ⟨d', v', ?_, ?_, ?_⟩
      · simp only [drawBits, if_neg hbit, hmod, if_pos hidx]
        exact heq
      · intro j
        rw [hcell j]
        by_cases hj : j = x + cX + base
        · subst hj
          rw [hitBitsFrom_false_of_lt pixel x base _ n (cX + 1) (by omega)]
          have hhit : hitBitsFrom pixel x base (x + cX + base) cX (n + 1) = true := by
            simp [hitBitsFrom, hbt]
          rw [hhit, if_pos rfl, if_neg (by simp), upd_self]
        · rw [upd_ne _ _ _ _ hj]
          have hne : ((j == x + cX + base) : Bool) = false := by
            rw [beq_eq_false_iff_ne]
            exact hj
          have hh : hitBitsFrom pixel x base j cX (n + 1) =
              hitBitsFrom pixel x base j (cX + 1) n := by
            simp [hitBitsFrom, hne]
          rw [hh]
      · rw [hvf]
        have hcg : collideBitsFrom pixel x base
            (upd disp (x + cX + base) (disp (x + cX + base) ^^^ 1)) (cX + 1) n =
            collideBitsFrom pixel x base disp (cX + 1) n :=
          collideBitsFrom_congr _ _ _ _ _ n (cX + 1)
            (fun b h1 h2 => upd_ne _ _ _ _ (by omega))
        rw [hcg]
        have hhead : collideBitsFrom pixel x base disp cX (n + 1) =
            (((((pixel &&& (128 >>> cX)) != 0) && (disp (x + cX + base) == 1))) ||
              collideBitsFrom pixel x base disp (cX + 1) n) := rfl
        rw [hhead, hbt]
        by_cases hold : disp (x + cX + base) = 1
        · simp [hold]
        · simp [hold]

/-- The outer draw loop, characterized per cell: with all sprite rows
readable (I + rows within memory) and every touched cell inside the
framebuffer, the loop succeeds, each cell hit by some set sprite bit is
XORed with 1 (rows touch pairwise disjoint cells), and the collision
accumulator becomes 1 exactly when some set bit lands on a cell of the
original framebuffer that held 1. -/
theorem drawRows_ok (mem : Nat → Nat) (i x y : Nat) :
    ∀ (cnt cY : Nat) (disp : Nat → Nat) (vf : Nat),
      i + cY + cnt ≤ 4096 →
      (∀ r b, cY ≤ r → r < cY + cnt → b < 8 → x + b + (y + r) * 64 < 2048) →
      ∃ disp' vf',
        drawRows mem i x y cnt cY disp vf = .ok (disp', vf') ∧
        (∀ j, disp' j =
          if hitRowsFrom mem i x y j cY cnt then disp j ^^^ 1 else disp j) ∧
        vf' = (if collideRowsFrom mem i x y disp cY cnt then 1 else vf) := by
  intro cnt
  induction cnt with
  | zero =>
    intro cY disp vf _ _
    exact ⟨disp, vf, rfl, fun j => by simp [hitRowsFrom], by simp [collideRowsFrom]⟩
  | succ n ih =>
    intro cY disp vf hmem hrows
    have hlt : i + cY < 4096 := by omega
    have hmod : (i + cY) % 65536 = i + cY := Nat.mod_eq_of_lt (by omega)
    obtain ⟨d1, v1, heq1, hcell1, hvf1⟩ :=
      drawBits_ok (mem (i + cY)) x ((y + cY) * 64) 8 0 disp vf
        (fun b _ h2 => hrows cY b (le_refl _) (by omega) (by omega))
    obtain ⟨d', v', heq2, hcell2, hvf2⟩ :=
      ih (cY + 1) d1 v1 (by omega)
        (fun r b h1 h2 h3 => hrows r b (by omega) (by omega) h3)
    refine ⟨d', v', ?_, ?_, ?_⟩
    · simp only [drawRows, arrRead, hmod, if_pos hlt, heq1]
      exact heq2
    · intro j
      rw [hcell2 j]
      have hsplit : hitRowsFrom mem i x y j cY (n + 1) =
          (hitBitsFrom (mem (i + cY)) x ((y + cY) * 64) j 0 8 ||
            hitRowsFrom mem i x y j (cY + 1) n) := rfl
      cases hrow : hitBitsFrom (mem (i + cY)) x ((y + cY) * 64) j 0 8 with
      | true =>
        have hrest : hitRowsFrom mem i x y j (cY + 1) n = false := by
          cases hx : hitRowsFrom mem i x y j (cY + 1) n with
          | false => rfl
          | true =>
            obtain ⟨b, _, hb2, hb3⟩ := hitBitsFrom_bounds _ _ _ _ 8 0 hrow
            obtain ⟨r, b', hr1, _, hb', hj'⟩ := hitRowsFrom_bounds _ _ _ _ _ n (cY + 1) hx
            omega
        rw [hrest, hcell1 j, hsplit, hrow, hrest]
        simp
      | false =>
        rw [hcell1 j, hsplit, hrow]
        simp
    · rw [hvf2, hvf1]
      have hcg : collideRowsFrom mem i x y d1 (cY + 1) n =
          collideRowsFrom mem i x y disp (cY + 1) n := by
        apply collideRowsFrom_congr
        intro r b hr1 hr2 hb
        rw [hcell1 (x + b + (y + r) * 64)]
        have hmiss : hitBitsFrom (mem (i + cY)) x ((y + cY) * 64)
            (x + b + (y + r) * 64) 0 8 = false := by
          cases hx : hitBitsFrom (mem (i + cY)) x ((y + cY) * 64)
              (x + b + (y + r) * 64) 0 8 with
          | false => rfl
          | true =>
            obtain ⟨b2, _, hb2, hb3⟩ := hitBitsFrom_bounds _ _ _ _ 8 0 hx
            omega
        rw [hmiss]
        simp
      rw [hcg]
      have hsplit : collideRowsFrom mem i x y disp cY (n + 1) =
          (collideBitsFrom (mem (i + cY)) x ((y + cY) * 64) disp 0 8 ||
            collideRowsFrom mem i x y disp (cY + 1) n) := rfl
      rw [hsplit]
      by_cases hc1 : collideBitsFrom (mem (i + cY)) x ((y + cY) * 64) disp 0 8 = true
      · simp [hc1]
      · simp only [Bool.not_eq_true] at hc1
        simp [hc1]

/-- C3: for every draw instruction whose computed cell indices all lie
within the 2048-cell framebuffer and whose I + N rows stay within the
4096-byte memory, `draw` succeeds, advances pc by 2, emits the draw event,
leaves memory and I unchanged, XORs exactly the cells hit by set sprite
bits (index X + bit + (Y + row) * 64, MSB first), leaves the other cells
and registers V0..VE alone, and ends with V[0xF] = 1 iff some set bit
landed on a cell that was 1 before the draw (which that XOR turns to 0) —
V[0xF] is cleared at the start, so it is 0 otherwise.  In particular,
drawing the 1-row 1-bit sprite 0x80 twice at (0, 0) lights the pixel with
V[0xF] = 0 and then unsets it with V[0xF] = 1. -/
theorem draw_spec :
    (∀ s : VM,
      (∀ r, r < s.opc % 16 → ∀ b, b < 8 →
        s.v (nibX s.opc) + b + (s.v (nibY s.opc) + r) * 64 < 2048) →
      s.i + s.opc % 16 ≤ 4096 →
      ∃ s', draw s = HRes.ok s.opc s' [Ev.draw] ∧
        s'.pc = (s.pc + 2) % 65536 ∧ s'.mem = s.mem ∧ s'.i = s.i ∧
        (∀ j, s'.disp j =
          if spriteHits s.mem s.i (s.v (nibX s.opc)) (s.v (nibY s.opc)) (s.opc % 16) j
          then s.disp j ^^^ 1 else s.disp j) ∧
        s'.v 15 =
          (if spriteCollides s.mem s.i (s.v (nibX s.opc)) (s.v (nibY s.opc))
              (s.opc % 16) s.disp then 1 else 0) ∧
        (∀ k, k ≠ 15 → s'.v k = s.v k)) ∧
    (afterDraw c3vm).disp 0 = 1 ∧ (afterDraw c3vm).v 15 = 0 ∧
    (afterDraw (afterDraw c3vm)).disp 0 = 0 ∧ (afterDraw (afterDraw c3vm)).v 15 = 1 := by
  refine ⟨?_, by decide, by decide, by decide, by decide⟩
  intro s hIdx hIN
  obtain ⟨d', v', heq, hcell, hvf⟩ :=
    drawRows_ok s.mem s.i (s.v (nibX s.opc)) (s.v (nibY s.opc)) (s.opc % 16) 0 s.disp 0
      (by omega) (fun r b h1 h2 h3 => hIdx r (by omega) b h3)
  refine Exists.intro
    { s with v := upd (upd s.v 0xF 0) 0xF v', disp := d', pc := (s.pc + 2) % 65536 }
    ⟨?_, rfl, rfl, rfl, ?_, ?_, ?_⟩
  · simp only [draw, heq]
  · intro j
    dsimp only
    exact hcell j
  · dsimp only
    rw [upd_self, hvf]
    rfl
  · intro k hk
    dsimp only
    rw [upd_ne _ _ _ _ hk, upd_ne _ _ _ _ hk]

/-- C3 witness: the draw statement applied at `c3vm` (1-row 1-bit sprite at
(0, 0), I = 0x300). -/
theorem draw_spec_witness :
    (∀ r, r < c3vm.opc % 16 → ∀ b, b < 8 →
      c3vm.v (nibX c3vm.opc) + b + (c3vm.v (nibY c3vm.opc) + r) * 64 < 2048) ∧
    c3vm.i + c3vm.opc % 16 ≤ 4096 ∧
    (∃ s', draw c3vm = HRes.ok c3vm.opc s' [Ev.draw] ∧
      s'.pc = (c3vm.pc + 2) % 65536 ∧ s'.mem = c3vm.mem ∧ s'.i = c3vm.i ∧
      (∀ j, s'.disp j =
        if spriteHits c3vm.mem c3vm.i (c3vm.v (nibX c3vm.opc)) (c3vm.v (nibY c3vm.opc))
            (c3vm.opc % 16) j
        then c3vm.disp j ^^^ 1 else c3vm.disp j) ∧
      s'.v 15 =
        (if spriteCollides c3vm.mem c3vm.i (c3vm.v (nibX c3vm.opc))
            (c3vm.v (nibY c3vm.opc)) (c3vm.opc % 16) c3vm.disp then 1 else 0) ∧
      (∀ k, k ≠ 15 → s'.v k = c3vm.v k)) :=
  ⟨by
    intro r hr b hb
    have h1 : c3vm.v (nibX c3vm.opc) = 0 := by decide
    have h2 : c3vm.v (nibY c3vm.opc) = 0 := by decide
    have h3 : c3vm.opc % 16 = 1 := by decide
    rw [h1, h2]
    rw [h3] at hr
    omega,
  by decide,
  draw_spec.1 c3vm
    (by
      intro r hr b hb
      have h1 : c3vm.v (nibX c3vm.opc) = 0 := by decide
      have h2 : c3vm.v (nibY c3vm.opc) = 0 := by decide
      have h3 : c3vm.opc % 16 = 1 := by decide
      rw [h1, h2]
      rw [h3] at hr
      omega)
    (by decide)⟩

end Chip8
